import Mathlib

/-!
Verification development for the AutoBrowser repository.

Each Python unit that the claims depend on is shallowly embedded as an
executable Lean definition translated from the source file named next to it.
Machine-level effects (Playwright calls, the Anthropic API, the console) are
modelled as explicit oracle parameters or by explicit state passing; Python
exceptions are modelled with Except.
-/

namespace AutoBrowser

/-! ## Generic string helpers (Python operators on str) -/

/-- The single-quote character (written via its code point). -/
def squote : Char := Char.ofNat 39

/-- Whether the first list is a prefix of the second (Boolean). -/
def leadsWith : List Char → List Char → Bool
  | [], _ => true
  | _ :: _, [] => false
  | a :: as, b :: bs => a = b && leadsWith as bs

/-- Whether the needle occurs as a contiguous sublist of the haystack.
Models the Python operator needle in hay on strings. -/
def containsSubList (needle : List Char) : List Char → Bool
  | [] => leadsWith needle []
  | c :: rest => leadsWith needle (c :: rest) || containsSubList needle rest

/-- Python membership test needle in hay for strings. -/
def strContains (hay needle : String) : Bool :=
  containsSubList needle.data hay.data

/-- Python str.lower (ASCII-relevant part). -/
def pyLower (s : String) : String := ⟨s.data.map Char.toLower⟩

/-- Python str.strip on a character list: drop whitespace on both ends. -/
def pyStripList (l : List Char) : List Char :=
  ((l.dropWhile Char.isWhitespace).reverse.dropWhile Char.isWhitespace).reverse

/-- Python str.strip. -/
def pyStrip (s : String) : String := ⟨pyStripList s.data⟩

/-- Python str.startswith. -/
def pyStartsWith (s pre : String) : Bool := leadsWith pre.data s.data

/-- Python str.split with a one-character separator (no maxsplit). -/
def splitChar (sep : Char) : List Char → List (List Char)
  | [] => [[]]
  | c :: rest =>
    if c = sep then [] :: splitChar sep rest
    else
      match splitChar sep rest with
      | [] => [[c]]
      | g :: gs => (c :: g) :: gs

/-- Python str.split with a one-character separator, on strings. -/
def pySplitChar (sep : Char) (s : String) : List String :=
  (splitChar sep s.data).map (fun l => ⟨l⟩)

/-! ## Selector validation, browser layer
Embeds BrowserInteractor.validate_selector and its helpers from
src/browser/interactor.py (the same code also appears in
src/browser/controller.py BrowserController.validate_selector). -/

/-- State of the character-by-character scan in _check_invalid_commas:
the previously seen character, whether we are inside a quoted run, the
opening quote character, and the bracket depth.  Python keeps the depth
non-negative via max(0, in_brackets - 1), which Nat subtraction mirrors. -/
structure ScanSt where
  prev : Option Char
  inQuotes : Bool
  quoteChar : Option Char
  brackets : Nat
deriving DecidableEq

/-- BrowserInteractor._is_quote_char from src/browser/interactor.py: a quote
character toggles quote mode when it is not escaped by a backslash and either
we are outside quotes or it matches the opening quote character. -/
def is_quote_char (c : Char) (prev : Option Char) (inQuotes : Bool)
    (quoteChar : Option Char) : Bool :=
  (c = '"' || c = squote) && prev ≠ some '\\' && (!inQuotes || some c = quoteChar)

/-- One step of the scan state for one character of the selector, translated
from the loop body of BrowserInteractor._check_invalid_commas (the comma
branch does not change the state, it only ends the loop, which icScan below
accounts for separately). -/
def icStep (st : ScanSt) (c : Char) : ScanSt :=
  if is_quote_char c st.prev st.inQuotes st.quoteChar then
    -- BrowserInteractor._toggle_quotes
    if !st.inQuotes then ⟨some c, true, some c, st.brackets⟩
    else if some c = st.quoteChar then ⟨some c, false, none, st.brackets⟩
    else ⟨some c, st.inQuotes, st.quoteChar, st.brackets⟩
  else if c = '[' && !st.inQuotes then
    ⟨some c, st.inQuotes, st.quoteChar, st.brackets + 1⟩
  else if c = ']' && !st.inQuotes then
    ⟨some c, st.inQuotes, st.quoteChar, st.brackets - 1⟩
  else
    ⟨some c, st.inQuotes, st.quoteChar, st.brackets⟩

/-- The condition under which _check_invalid_commas reports the comma error
at the current character (a comma can never take the quote or bracket
branches, so this is exactly the remaining guard of the loop). -/
def commaFires (st : ScanSt) (c : Char) : Bool :=
  c = ',' && !st.inQuotes && st.brackets == 0

/-- BrowserInteractor._check_invalid_commas as a Boolean: true iff the loop
returns the comma error message. -/
def icScan (st : ScanSt) : List Char → Bool
  | [] => false
  | c :: rest => commaFires st c || icScan (icStep st c) rest

/-- Initial scan state of _check_invalid_commas. -/
def icInit : ScanSt := ⟨none, false, none, 0⟩

/-- Running the scan automaton over a list of characters without the early
return, to talk about the state reached before a given position. -/
def icRun (st : ScanSt) (l : List Char) : ScanSt := l.foldl icStep st

/-- Declarative reading of the spec sentence: the selector contains a comma
that sits outside every quoted run and every bracketed segment, where
quote/bracket tracking is the character-by-character automaton (escaped
quotes respected, depth clamped at zero). -/
def UnscopedComma (l : List Char) : Prop :=
  ∃ pfx sfx, l = pfx ++ ',' :: sfx ∧
    (icRun icInit pfx).inQuotes = false ∧ (icRun icInit pfx).brackets = 0

/-- Failure messages of BrowserInteractor.validate_selector. -/
def emptySelectorMsg : String := "Selector cannot be empty"

def commaOutsideMsg : String :=
  "Selector contains comma outside quotes/brackets - use a single specific selector instead of multiple fragments"

def doubleCommaMsg : String := "Selector contains double comma - invalid syntax"

def mixedSyntaxMsg : String :=
  "Selector mixes >> and comma syntax - use one style consistently"

/-- BrowserInteractor.validate_selector from src/browser/interactor.py.
Returns (is_valid, error_message). -/
def validate_selector (s : String) : Bool × String :=
  if pyStrip s = "" then (false, emptySelectorMsg)
  else
    let sel := pyStrip s
    if icScan icInit sel.data then (false, commaOutsideMsg)
    else if strContains sel ",," then (false, doubleCommaMsg)
    else if strContains sel ">>" && strContains sel "," then (false, mixedSyntaxMsg)
    else (true, "")

/-! ## Selector validation, tool-handler layer
Embeds validate_selector from src/agent/tools/handlers.py.  It differs from
the browser-layer scan: parentheses count as brackets, brackets are counted
even inside quotes, the depth may go negative, and it additionally rejects
the bare body/html/wildcard targets. -/

/-- Scan state of the handler-layer comma check; the depth is an integer
because this version never clamps it at zero. -/
structure HScanSt where
  prev : Option Char
  inQuotes : Bool
  quoteChar : Option Char
  brackets : Int
deriving DecidableEq

/-- The quote condition of the handler-layer loop: a quote character that is
not escaped (this version checks the escape only, not the quote mode). -/
def hQuoteHit (c : Char) (prev : Option Char) : Bool :=
  (c = '"' || c = squote) && prev ≠ some '\\'

/-- One step of the handler-layer scan for one character. -/
def hStep (st : HScanSt) (c : Char) : HScanSt :=
  if hQuoteHit c st.prev then
    if !st.inQuotes then ⟨some c, true, some c, st.brackets⟩
    else if some c = st.quoteChar then ⟨some c, false, none, st.brackets⟩
    else ⟨some c, st.inQuotes, st.quoteChar, st.brackets⟩
  else if c = '[' || c = '(' then
    ⟨some c, st.inQuotes, st.quoteChar, st.brackets + 1⟩
  else if c = ']' || c = ')' then
    ⟨some c, st.inQuotes, st.quoteChar, st.brackets - 1⟩
  else
    ⟨some c, st.inQuotes, st.quoteChar, st.brackets⟩

/-- Comma-error condition of the handler-layer loop. -/
def hCommaFires (st : HScanSt) (c : Char) : Bool :=
  c = ',' && !st.inQuotes && st.brackets == 0

/-- The handler-layer comma loop as a Boolean: true iff it returns the
comma error. -/
def hScan (st : HScanSt) : List Char → Bool
  | [] => false
  | c :: rest => hCommaFires st c || hScan (hStep st c) rest

/-- Initial state of the handler-layer scan. -/
def hInit : HScanSt := ⟨none, false, none, 0⟩

/-- Handler-layer automaton run without the early return. -/
def hRun (st : HScanSt) (l : List Char) : HScanSt := l.foldl hStep st

/-- Comma outside quotes and brackets as tracked by the handler-layer
automaton (parentheses bracketed, no clamping, quotes do not shield
brackets). -/
def HUnscopedComma (l : List Char) : Prop :=
  ∃ pfx sfx, l = pfx ++ ',' :: sfx ∧
    (hRun hInit pfx).inQuotes = false ∧ (hRun hInit pfx).brackets = 0

/-- Failure cases of the handler-layer validate_selector (the Python
function returns distinct formatted message strings; the message text
mentions only the tool name and the selector). -/
inductive HandlerSelFail where
  | emptySel
  | commaSeparated
  | tooBroad
deriving DecidableEq

/-- validate_selector from src/agent/tools/handlers.py: empty check, comma
loop over the raw selector, then the bare body/html/wildcard check on the
stripped selector.  Returns none when the selector passes. -/
def handlers_validate_selector (s : String) : Option HandlerSelFail :=
  if pyStrip s = "" then some .emptySel
  else if hScan hInit s.data then some .commaSeparated
  else
    let stripped := pyStrip s
    if stripped = "body" || stripped = "html" || stripped = "*" then some .tooBroad
    else none

/-! ## Safe-navigation guard
Embeds BrowserNavigator._is_safe_url from src/browser/navigator.py.  The
library calls urlparse(url).hostname and ipaddress.ip_address(hostname) are
modelled by oracle parameters: parseHostname returns the (already
lowercased) hostname or none when it is missing/empty/unparsable, and
ipFlagsOf returns the address-range flags or none when ip_address raises
ValueError (hostname is not an IP literal). -/

/-- The range flags that ipaddress exposes on a parsed address. -/
structure IpFlags where
  isPrivate : Bool
  isLoopback : Bool
  isLinkLocal : Bool
deriving DecidableEq

/-- The fixed scheme blacklist of _is_safe_url. -/
def dangerous_protocols : List String :=
  ["javascript:", "data:", "file:", "ftp:", "about:", "blob:", "vbscript:"]

/-- The scheme allow-list of _is_safe_url. -/
def safe_protocols : List String := ["http://", "https://"]

/-- BrowserNavigator._is_safe_url from src/browser/navigator.py. -/
def is_safe_url (parseHostname : String → Option String)
    (ipFlagsOf : String → Option IpFlags) (url : String) : Bool :=
  let urlLower := pyStrip (pyLower url)
  if !(strContains urlLower "://") then true
  else if dangerous_protocols.any (fun d => pyStartsWith urlLower d) then false
  else if safe_protocols.any (fun p => pyStartsWith urlLower p) then
    match parseHostname url with
    | none => true
    | some host =>
      match ipFlagsOf host with
      | some ip =>
        if ip.isPrivate || ip.isLoopback || ip.isLinkLocal then false else true
      | none =>
        if pyLower host = "localhost" || pyLower host = "127.0.0.1"
            || pyLower host = "::1" then false
        else true
  else false

/-! ## Tool registry and dispatcher
Embeds Tool and ToolRegistry from src/agent/tools/registry.py (the same code
also appears in src/agent/tools.py).  A Python dict is modelled as an
association list with insertion order; handlers may raise, which is modelled
by Except. -/

/-- The Python exceptions this development distinguishes. -/
inductive PyExc where
  | valueError (msg : String)
  | attributeError (msg : String)
  | typeError (msg : String)
deriving DecidableEq

/-- str(e) on an exception. -/
def pyExcMsg : PyExc → String
  | .valueError m => m
  | .attributeError m => m
  | .typeError m => m

/-- Tool-call arguments: the keyword-argument map. -/
abbrev ArgMap := List (String × String)

/-- Tool from src/agent/tools/registry.py (parameter schema omitted; it is
only forwarded to the API surface). -/
structure PyTool where
  name : String
  description : String
  handler : ArgMap → Except PyExc String

/-- ToolRegistry from src/agent/tools/registry.py: self.tools is a dict from
name to Tool, modelled with insertion order preserved. -/
structure ToolRegistry where
  tools : List (String × PyTool)

/-- Python dict assignment d[k] = v: overwrite in place, else append. -/
def dictSet (k : String) (v : PyTool) : List (String × PyTool) → List (String × PyTool)
  | [] => [(k, v)]
  | (k', v') :: rest => if k' = k then (k, v) :: rest else (k', v') :: dictSet k v rest

/-- ToolRegistry.register: stores by tool name, last registration wins. -/
def registerTool (reg : ToolRegistry) (t : PyTool) : ToolRegistry :=
  ⟨dictSet t.name t reg.tools⟩

/-- ToolRegistry.get_tool: raises ValueError when the name is unknown. -/
def get_tool (reg : ToolRegistry) (name : String) : Except PyExc PyTool :=
  match reg.tools.lookup name with
  | some t => .ok t
  | none => .error (.valueError ("Unknown tool: " ++ name))

/-- ToolRegistry.execute_tool: the lookup happens before the try block, so
its ValueError propagates; the handler call is inside the try block, so any
fault it raises becomes a formatted error string. -/
def execute_tool (reg : ToolRegistry) (name : String) (args : ArgMap) :
    Except PyExc String := do
  let t ← get_tool reg name
  match t.handler args with
  | .ok r => .ok r
  | .error e => .ok ("Error executing tool " ++ name ++ ": " ++ pyExcMsg e)

/-! ## Context manager
Embeds ContextManager.get_current_context and _truncate_overview from
src/agent/context_manager.py.  The url/title fields of the returned dict are
page reads that the claim does not concern; the overview string is the input
here. -/

/-- CHARS_PER_TOKEN from src/agent/context_manager.py. -/
def CHARS_PER_TOKEN : Nat := 4

/-- The omission marker line appended by _truncate_overview. -/
def truncMarker (omitted : Nat) : String :=
  "... (truncated, " ++ toString omitted ++ " lines omitted)"

/-- The line loop of ContextManager._truncate_overview: keep lines while the
running floor-divided token count stays within the limit; on the first line
that would exceed it, emit the marker and stop. -/
def truncAux (tokenLimit totalLines keptCount currentTokens : Nat) :
    List String → List String
  | [] => []
  | line :: rest =>
    let lineTokens := line.length / CHARS_PER_TOKEN
    if tokenLimit < currentTokens + lineTokens then
      [truncMarker (totalLines - keptCount)]
    else
      line :: truncAux tokenLimit totalLines (keptCount + 1)
        (currentTokens + lineTokens) rest

/-- ContextManager._truncate_overview. -/
def truncate_overview (tokenLimit : Nat) (overview : String) : String × Bool :=
  let lines := pySplitChar '\n' overview
  (String.intercalate "\n" (truncAux tokenLimit lines.length 0 0 lines), true)

/-- The overview-related fields of the dict that get_current_context
returns. -/
structure PageContext where
  overview : String
  estimatedTokens : Nat
  wasTruncated : Bool
deriving DecidableEq

/-- ContextManager.get_current_context, as a function of the overview the
extractor produced and the configured token limit. -/
def get_current_context (tokenLimit : Nat) (overview : String) : PageContext :=
  let est := overview.length / CHARS_PER_TOKEN
  if tokenLimit < est then
    let p := truncate_overview tokenLimit overview
    ⟨p.1, p.1.length / CHARS_PER_TOKEN, p.2⟩
  else ⟨overview, est, false⟩

/-! ## Tab manager
Embeds TabManager.close_tab from src/browser/tab_manager.py.  Pages are
identified by numeric ids standing for the distinct Playwright Page objects;
the comparison page_to_close == self.lifecycle.page is identity comparison
on those objects.  Raising is modelled by returning the untouched state with
an error message, which matches the source: both raises happen before any
assignment. -/

/-- The tab-related state: context.pages in order, and the id of the page
held by lifecycle._page. -/
structure TabSt where
  pages : List Nat
  active : Nat
deriving DecidableEq

/-- Message of the sole-tab refusal. -/
def onlyTabMsg : String :=
  "Cannot close the only open tab. At least one tab must remain open."

/-- Message of the range check. -/
def invalidTabMsg (i : Int) (n : Nat) : String :=
  "Invalid tab index: " ++ toString i ++ ". Available tabs: 0-" ++ toString (n - 1)

/-- TabManager.close_tab.  In the success branch the index is in range, so
the getD default is never used. -/
def close_tab (st : TabSt) (i : Int) : TabSt × Option String :=
  let pages := st.pages
  if pages.length = 1 then (st, some onlyTabMsg)
  else if i < 0 || (pages.length : Int) ≤ i then
    (st, some (invalidTabMsg i pages.length))
  else
    let idx := i.toNat
    let pageToClose := pages.getD idx 0
    let st1 :=
      if pageToClose = st.active then
        let newIndex := if idx < pages.length - 1 then idx + 1 else idx - 1
        { st with active := pages.getD newIndex 0 }
      else st
    ({ st1 with pages := pages.eraseIdx idx }, none)

/-! ## Frame manager and interaction scope
Embeds FrameManager from src/browser/frame_manager.py and records, for each
interaction primitive of src/browser/interactor.py, which document scope the
primitive resolves its selector against.  The attached-check
page.wait_for_selector(selector, state="attached") is an engine call,
modelled by the Boolean oracle attached. -/

/-- The frame state: _current_frame_selector. -/
structure FrameSt where
  currentFrameSelector : Option String
deriving DecidableEq

/-- FrameManager.switch_to_frame: validates the selector, confirms the
target is attached, then records it as the active scope. -/
def switch_to_frame (attached : Bool) (_st : FrameSt) (selector : String) :
    Except String FrameSt :=
  if !(validate_selector selector).1 then
    .error ("Invalid selector: " ++ (validate_selector selector).2)
  else if !attached then
    .error ("Iframe with selector '" ++ selector ++ "' not found on page")
  else .ok { currentFrameSelector := some selector }

/-- FrameManager.switch_to_main_content. -/
def switch_to_main_content (_st : FrameSt) : FrameSt :=
  { currentFrameSelector := none }

/-- A document scope a selector can be resolved against. -/
inductive DocScope where
  | mainPage
  | frameScoped (selector : String)
deriving DecidableEq

/-- The scope BrowserInteractor.click resolves against: the method fetches
self.lifecycle.page and issues page.click / page.wait_for_selector /
page.eval_on_selector on it (src/browser/interactor.py lines 139-156); the
frame state is never read. -/
def click_resolution_scope (_st : FrameSt) : DocScope := DocScope.mainPage

/-- The scope BrowserInteractor.type_text resolves against
(self.lifecycle.page.wait_for_selector, line 186). -/
def type_text_resolution_scope (_st : FrameSt) : DocScope := DocScope.mainPage

/-- The scope BrowserInteractor.hover resolves against (line 311). -/
def hover_resolution_scope (_st : FrameSt) : DocScope := DocScope.mainPage

/-- The scope BrowserInteractor.wait_for_selector resolves against
(line 251). -/
def wait_for_resolution_scope (_st : FrameSt) : DocScope := DocScope.mainPage

/-- BrowserController._get_frame_or_page from src/browser/controller.py:
the helper that would route an operation to the recorded frame.  No caller
exists anywhere in the repository. -/
def get_frame_or_page (st : FrameSt) : DocScope :=
  match st.currentFrameSelector with
  | some sel => DocScope.frameScoped sel
  | none => DocScope.mainPage

/-! ## Element discovery and ranking
Embeds the in-page script of DOMExtractor.find_elements_by_text from
src/browser/dom_utils.py.  The DOM is a tree of element and text nodes; an
element carries its computed visibility as a flag (the script derives it
from layout, which is outside the program).  JS node.textContent is the
concatenation of all descendant text; the script walks the element nodes
under document.body in document order (the walker does not yield the root). -/

/-- A DOM node. -/
inductive Dom where
  | txt (s : String)
  | el (tag : String) (visible : Bool) (kids : List Dom)

mutual

/-- JS node.textContent. -/
def textContent : Dom → String
  | .txt s => s
  | .el _ _ ks => textContentList ks

/-- textContent of a list of siblings, concatenated in order. -/
def textContentList : List Dom → String
  | [] => ""
  | d :: ds => textContent d ++ textContentList ds

end

mutual

/-- The element nodes of a subtree in document order, each paired with the
tag of its parent element (JS parentElement).  The node itself is included
first, then its descendants. -/
def walkAux (pt : String) : Dom → List (String × Dom)
  | .txt _ => []
  | .el t v ks => (pt, Dom.el t v ks) :: walkList t ks

/-- walkAux over a list of siblings. -/
def walkList (pt : String) : List Dom → List (String × Dom)
  | [] => []
  | d :: ds => walkAux pt d ++ walkList pt ds

end

/-- document.createTreeWalker(document.body, SHOW_ELEMENT): every element
strictly below the root, in document order, with its parent tag. -/
def walker (root : Dom) : List (String × Dom) :=
  match root with
  | .el t _ ks => walkList t ks
  | .txt _ => []

/-- The trimmed direct text-node children (the ownText computation of
getPriority: childNodes filtered to text nodes, each trimmed). -/
def ownTexts : List Dom → List String
  | [] => []
  | .txt s :: ds => pyStrip s :: ownTexts ds
  | .el _ _ _ :: ds => ownTexts ds

/-- ownText of getPriority: the trimmed direct text joined with spaces. -/
def ownText (ks : List Dom) : String := String.intercalate " " (ownTexts ks)

/-- interactiveTags from the find script. -/
def interactiveTags : List String := ["button", "a", "input", "select", "textarea"]

/-- The generic inline/text container tags of the heavy penalty rule. -/
def genericInline : List String := ["span", "div", "p"]

/-- The generic container tags of the small penalty rule. -/
def genericContainers : List String := ["div", "span", "body", "html"]

/-- getPriority from the find script, for an element with the given tag,
children and parent tag.  JS numbers are modelled as rationals. -/
def getPriority (query tag parentTag : String) (kids : List Dom) : ℚ :=
  let p1 : ℚ := if tag ∈ interactiveTags then 100 else 0
  let p2 : ℚ := if strContains (ownText kids) query then 50 else 0
  let p3 : ℚ := if tag ∈ genericInline ∧ parentTag ∈ interactiveTags then -200 else 0
  let p4 : ℚ := if tag ∈ genericContainers then -20 else 0
  let textLen : ℚ := ((textContentList kids).length : ℚ)
  p1 + p2 + p3 + p4 - min (textLen / 100) 30

/-- A scored candidate of the find script.  docIndex is the position of the
node in the tree walk, standing for the identity of the JS node object. -/
structure Candidate where
  docIndex : Nat
  tag : String
  parentTag : String
  priority : ℚ
deriving DecidableEq

/-- The candidate produced for one walked node (no role filter): kept when
its textContent contains the query and it is visible. -/
def candFromPair (query : String) (idx : Nat) : String × Dom → List Candidate
  | (pt, .el t v ks) =>
    if strContains (textContent (.el t v ks)) query && v then
      [⟨idx, t, pt, getPriority query t pt ks⟩]
    else []
  | (_, .txt _) => []

/-- The candidate list over the walked nodes. -/
def mkCands (query : String) : Nat → List (String × Dom) → List Candidate
  | _, [] => []
  | idx, p :: rest => candFromPair query idx p ++ mkCands query (idx + 1) rest

/-- The candidates the find script collects for a page, in document order. -/
def candidates (query : String) (root : Dom) : List Candidate :=
  mkCands query 0 (walker root)

/-- Insertion into a descending-priority list, before the first element that
does not beat the inserted one.  This keeps earlier elements ahead of later
ones of equal priority. -/
def insertDesc (x : Candidate) : List Candidate → List Candidate
  | [] => [x]
  | y :: ys => if y.priority ≤ x.priority then x :: y :: ys else y :: insertDesc x ys

/-- candidates.sort((a, b) => b.priority - a.priority): ECMAScript sort is
stable, and a stable sort under a consistent comparator has a unique output,
here computed by stable insertion. -/
def sortByPriority : List Candidate → List Candidate
  | [] => []
  | x :: xs => insertDesc x (sortByPriority xs)

/-- The ranked candidate list (before the top-10 slice, which preserves this
order). -/
def ranked (query : String) (root : Dom) : List Candidate :=
  sortByPriority (candidates query root)

/-! ## Discovery at the tool boundary
Embeds DOMExtractor.find_elements_by_text's Python wrapper (src/browser/
dom_utils.py lines 382-386) and find_element_by_text_handler from
src/agent/tools/handlers.py.  The page.evaluate call is the oracle: it
either returns the result list or raises. -/

/-- A result row of the find script as the handler consumes it. -/
structure FoundElem where
  selector : String
  text : String
  tag : String
  context : String
deriving DecidableEq

/-- The try/except wrapper of DOMExtractor.find_elements_by_text: any
evaluation fault yields the empty list, and a falsy result is normalised to
the empty list.  ContextManager.find_elements_by_text forwards this value
unchanged. -/
def find_elements_by_text (evalOutcome : Except String (List FoundElem)) :
    List FoundElem :=
  match evalOutcome with
  | .ok results => if results = [] then [] else results
  | .error _ => []

/-- The zero-match reply of find_element_by_text_handler. -/
def noElementsMsg (text : String) (role : Option String) : String :=
  "No elements found containing text '" ++ text ++ "'" ++
    (match role with
     | some r => " with role '" ++ r ++ "'"
     | none => "")

/-- One numbered line of the multi-match reply. -/
def elemLine (i : Nat) (e : FoundElem) : String :=
  toString i ++ ". " ++ e.tag ++ " '" ++ e.text.take 50 ++ "' " ++ e.context
    ++ "\n   Selector: " ++ e.selector

/-- The numbered lines for the first ten results. -/
def elemLines (i : Nat) : List FoundElem → List String
  | [] => []
  | e :: rest => elemLine i e :: elemLines (i + 1) rest

/-- find_element_by_text_handler from src/agent/tools/handlers.py. -/
def find_element_by_text_handler (evalOutcome : Except String (List FoundElem))
    (text : String) (role : Option String) : String :=
  let results := find_elements_by_text evalOutcome
  if results = [] then noElementsMsg text role
  else
    match results with
    | [elem] =>
      "Found 1 element: " ++ elem.tag ++ " '" ++ elem.text.take 50 ++ "' "
        ++ elem.context ++ "\nSelector: " ++ elem.selector
    | _ =>
      let headLine := "Found " ++ toString results.length
        ++ " elements containing '" ++ text ++ "':"
      let parts := headLine :: elemLines 1 (results.take 10)
      let parts :=
        if 10 < results.length then
          parts ++ ["... and " ++ toString (results.length - 10) ++ " more matches"]
        else parts
      let parts := parts
        ++ ["\nChoose the appropriate selector from the list above for your next action."]
      String.intercalate "\n" parts

/-! ## The conversation and the model response
Embeds the message shapes that ClaudeClient (src/llm/claude_client.py)
exchanges: a response is a list of content blocks; a conversation turn is a
plain user message, an assistant message, or a tool-result message
(create_tool_result_message builds a user-role message holding exactly one
tool_result block for one tool_use id). -/

/-- A content block of a model response. -/
inductive Block where
  | textBlock (s : String)
  | toolUseBlock (id name : String) (input : ArgMap)
deriving DecidableEq

/-- A conversation turn. -/
inductive Turn where
  | userMsg (s : String)
  | assistantMsg (content : List Block)
  | toolResultMsg (toolUseId : String) (content : String)
deriving DecidableEq

/-- A tool call extracted from a response. -/
structure ToolCall where
  id : String
  name : String
  input : ArgMap
deriving DecidableEq

/-- ClaudeClient.extract_tool_calls: the tool_use blocks in order. -/
def extract_tool_calls : List Block → List ToolCall
  | [] => []
  | .textBlock _ :: rest => extract_tool_calls rest
  | .toolUseBlock id name input :: rest => ⟨id, name, input⟩ :: extract_tool_calls rest

/-- The text parts of a response. -/
def textParts : List Block → List String
  | [] => []
  | .textBlock s :: rest => s :: textParts rest
  | .toolUseBlock _ _ _ :: rest => textParts rest

/-- ClaudeClient.extract_text. -/
def extract_text (content : List Block) : String :=
  String.intercalate "\n" (textParts content)

/-! ## Coordinator loop
Embeds Coordinator.execute_task and _get_retry_hint_message from
src/agent/coordinator.py.  The model is an oracle script of responses (one
per send_message call); the human console is the confirm oracle; context
refreshes read the ctx oracle, indexed by how many get_current_context calls
have happened.  The trace holds the conversation as passed to each
send_message call. -/

/-- A Python value as seen by attribute lookup: iterating a dict of tools
yields its keys, which are strings, not Tool objects. -/
inductive PyVal where
  | vstr (s : String)
  | vtool (t : PyTool)

/-- Iterating self.tools.tools (a dict) yields the key strings. -/
def dict_iter (d : List (String × PyTool)) : List PyVal :=
  d.map (fun kv => PyVal.vstr kv.1)

/-- CPython attribute lookup of .name: Tool instances carry the attribute,
str instances do not, so the lookup raises AttributeError. -/
def getattr_name : PyVal → Except PyExc String
  | .vstr _ => .error (.attributeError "'str' object has no attribute 'name'")
  | .vtool t => .ok t.name

/-- First retry hint of _get_retry_hint_message. -/
def retryHint1 : String :=
  "You didn't provide any tool calls in your last response. To continue with the task, you MUST call one of the available tools.\n\nPlease analyze the current situation and choose the next action. What tool should you use to make progress on the task?"

/-- Second retry hint, listing the available tools by name. -/
def retryHint2 (toolNames : List String) : String :=
  let toolsList := String.intercalate "\n" (toolNames.map (fun n => "  - " ++ n))
  "You still haven't provided any tool calls. You MUST use one of the available tools to continue.\n\nAvailable tools:\n"
    ++ toolsList
    ++ "\n\nBased on the current page context and the task goal, which tool should you call next? Please make a decision and call a tool."

/-- Final retry hint. -/
def retryHint3 : String :=
  "This is the final attempt. You MUST call a tool or use task_complete if the task is done.\n\nIf you cannot proceed due to:\n- Missing information: Use get_page_overview or get_element_details to gather more info\n- Uncertainty: Make your best guess based on available context\n- Task completion: Use task_complete with a summary\n\nPlease call a tool now."

/-- Coordinator._get_retry_hint_message.  The retry_count == 2 branch runs
the list comprehension over self.tools.tools, taking .name of each iterated
value; since dict iteration yields key strings, that lookup raises. -/
def get_retry_hint_message (reg : ToolRegistry) (retryCount : Nat) :
    Except PyExc String :=
  if retryCount = 1 then .ok retryHint1
  else if retryCount = 2 then do
    let toolNames ← (dict_iter reg.tools).mapM getattr_name
    .ok (retryHint2 toolNames)
  else .ok retryHint3

/-- The initial user message of execute_task. -/
def initialUserMsg (task overview : String) : String :=
  "Task: " ++ task ++ "\n\nCurrent Page Context:\n" ++ overview
    ++ "\n\nPlease help me accomplish this task. Start by analyzing what's needed and take appropriate actions."

/-- Replacement result after a granted confirmation. -/
def confirmedResultMsg : String :=
  "User confirmed the action. You may proceed with the next step."

/-- Replacement result after a declined confirmation. -/
def declinedResultMsg : String :=
  "User DECLINED the action. Do NOT proceed. The task cannot be completed as requested."

/-- Replacement result after a completed human intervention. -/
def interventionDoneMsg : String :=
  "Human intervention completed. User has manually handled the required action in the browser."

/-- The recovery hint injected after three consecutive failures. -/
def helpHintMsg : String :=
  "You've encountered multiple consecutive failures. If you're stuck or unable to proceed:\n1. Try a different approach or tool\n2. Use get_page_overview to reassess the situation\n3. If the issue persists, consider using request_human_help to get assistance\n\nWhat would you like to do?"

/-- The refreshed-context message after a human intervention. -/
def interventionCtxMsg (overview : String) : String :=
  "Updated page context after human intervention:\n" ++ overview
    ++ "\n\nYou can now continue with the task."

/-- The refreshed-context message after a page-mutating tool. -/
def refreshCtxMsg (toolName overview : String) : String :=
  "Updated page context after " ++ toolName ++ ":\n" ++ overview

/-- The message returned when the loop ends without completion. -/
def maxIterationsMsg (maxIterations : Nat) : String :=
  "Agent reached maximum iterations (" ++ toString maxIterations
    ++ ") without completing the task."

/-- Python s.split(":", 2): at most two splits, the remainder rejoined. -/
def pySplit2Colon (s : String) : List String :=
  match pySplitChar ':' s with
  | [] => []
  | [a] => [a]
  | [a, b] => [a, b]
  | a :: b :: rest => [a, b, String.intercalate ":" rest]

/-- The tools after which execute_task refreshes the page context. -/
def mutatingTools : List String :=
  ["click", "navigate_to", "scroll", "type_text", "press_key"]

/-- Coordinator loop state.  fetches counts get_current_context calls. -/
structure CoordSt where
  conversation : List Turn
  iteration : Nat
  noToolRetryCount : Nat
  consecutiveFailures : Nat
  fetches : Nat
  trace : List (List Turn)

/-- Outcome of execute_task: a completion summary, the post-loop failure
message, a propagated Python exception, or exhaustion of the response
script. -/
inductive CoordOutcome where
  | completed (summary : String)
  | maxedOut (msg : String)
  | crashed (e : PyExc)
  | scriptEnded
deriving DecidableEq

/-- The oracles and configuration of one execute_task run. -/
structure CoordEnv where
  registry : ToolRegistry
  maxIterations : Nat
  confirm : String → String → Bool
  ctx : Nat → Except PyExc String

/-- Result of processing one tool call inside the per-response loop. -/
inductive CallStep where
  | next (st : CoordSt)
  | finish (summary : String)
  | fault (e : PyExc)

/-- The confirmation-sentinel interception (src/agent/coordinator.py lines
139-152): a CONFIRMATION_REQUIRED result is parsed into risk level and
description, routed to the blocking yes/no prompt, and replaced by the
confirmed/declined result text. -/
def confirmIntercept (env : CoordEnv) (result0 : String) : String :=
  if pyStartsWith result0 "CONFIRMATION_REQUIRED:" then
    let parts := pySplit2Colon result0
    let riskLevel := parts.getD 1 "unknown"
    let actionDescription := parts.getD 2 "Unknown action"
    if env.confirm actionDescription riskLevel then confirmedResultMsg
    else declinedResultMsg
  else result0

/-- The consecutive-failure policy (lines 180-201): reset on success,
increment on failure, and at the threshold inject the recovery hint and
reset. -/
def applyFailurePolicy (st : CoordSt) (success : Bool) : CoordSt :=
  if success then { st with consecutiveFailures := 0 }
  else if 3 ≤ st.consecutiveFailures + 1 then
    { st with
      consecutiveFailures := 0
      conversation := st.conversation ++ [Turn.userMsg helpHintMsg] }
  else { st with consecutiveFailures := st.consecutiveFailures + 1 }

/-- The post-intervention context refresh (lines 203-219), best-effort. -/
def appendInterventionCtx (env : CoordEnv) (humanNeeded : Bool) (st : CoordSt) :
    CoordSt :=
  if humanNeeded then
    match env.ctx st.fetches with
    | .ok overview =>
      { st with
        fetches := st.fetches + 1
        conversation := st.conversation
          ++ [Turn.userMsg (interventionCtxMsg overview)] }
    | .error _ => { st with fetches := st.fetches + 1 }
  else st

/-- The post-action context refresh for page-mutating tools (lines 221-236),
best-effort. -/
def appendRefreshCtx (env : CoordEnv) (name : String) (st : CoordSt) : CoordSt :=
  if name ∈ mutatingTools then
    match env.ctx st.fetches with
    | .ok overview =>
      { st with
        fetches := st.fetches + 1
        conversation := st.conversation
          ++ [Turn.userMsg (refreshCtxMsg name overview)] }
    | .error _ => { st with fetches := st.fetches + 1 }
  else st

/-- The body of the per-tool-call loop of execute_task (src/agent/
coordinator.py lines 121-236): task_complete returns at once; otherwise the
dispatch result is intercepted for the confirmation and human-intervention
sentinels, appended as the tool-result turn, the failure counter is updated
(with the recovery hint at the threshold), and the context refreshes are
appended best-effort. -/
def processToolCall (env : CoordEnv) (st : CoordSt) (call : ToolCall) : CallStep :=
  if call.name = "task_complete" then
    .finish ((call.input.lookup "summary").getD "Task completed")
  else
    match execute_tool env.registry call.name call.input with
    | .error e => .fault e
    | .ok result0 =>
      let result1 := confirmIntercept env result0
      let humanNeeded := pyStartsWith result1 "HUMAN_INTERVENTION_REQUIRED:"
      let result2 := if humanNeeded then interventionDoneMsg else result1
      let success := !pyStartsWith result2 "Error" && !pyStartsWith result2 "Failed"
      let st1 := { st with
        conversation := st.conversation ++ [Turn.toolResultMsg call.id result2] }
      .next (appendRefreshCtx env call.name
        (appendInterventionCtx env humanNeeded (applyFailurePolicy st1 success)))

/-- The per-response loop over the extracted tool calls, in order. -/
def processToolCalls (env : CoordEnv) (st : CoordSt) : List ToolCall → CallStep
  | [] => .next st
  | c :: rest =>
    match processToolCall env st c with
    | .next st' => processToolCalls env st' rest
    | other => other

/-- The while loop of Coordinator.execute_task, consuming one scripted model
response per iteration. -/
def coordLoop (env : CoordEnv) : CoordSt → List (List Block) →
    CoordOutcome × List (List Turn)
  | st, script =>
    if env.maxIterations ≤ st.iteration then
      (.maxedOut (maxIterationsMsg env.maxIterations), st.trace)
    else
      match script with
      | [] => (.scriptEnded, st.trace)
      | response :: rest =>
        let st0 := { st with
          iteration := st.iteration + 1
          trace := st.trace ++ [st.conversation] }
        let st1 := { st0 with
          conversation := st0.conversation ++ [Turn.assistantMsg response] }
        let toolCalls := extract_tool_calls response
        if toolCalls = [] then
          let n := st1.noToolRetryCount + 1
          if 3 ≤ n then
            (.maxedOut (maxIterationsMsg env.maxIterations), st1.trace)
          else
            match get_retry_hint_message env.registry n with
            | .error e => (.crashed e, st1.trace)
            | .ok hint =>
              coordLoop env { st1 with
                noToolRetryCount := n
                conversation := st1.conversation ++ [Turn.userMsg hint] } rest
        else
          let st2 := { st1 with noToolRetryCount := 0 }
          match processToolCalls env st2 toolCalls with
          | .finish summary => (.completed summary, st2.trace)
          | .fault e => (.crashed e, st2.trace)
          | .next st3 => coordLoop env st3 rest

/-- Coordinator.execute_task: the initial context fetch (uncaught, so its
fault propagates), the initial user message, then the loop. -/
def execute_task (env : CoordEnv) (task : String) (script : List (List Block)) :
    CoordOutcome × List (List Turn) :=
  match env.ctx 0 with
  | .error e => (.crashed e, [])
  | .ok overview =>
    coordLoop env
      { conversation := [Turn.userMsg (initialUserMsg task overview)]
        iteration := 0
        noToolRetryCount := 0
        consecutiveFailures := 0
        fetches := 1
        trace := [] } script

/-! ## Sub-agent loop
Embeds SubAgent.execute from src/agent/subagents/base.py. -/

/-- Outcome of SubAgent.execute. -/
inductive SubOutcome where
  | finished (text : String)
  | maxSteps (agentName : String)
  | crashed (e : PyExc)
  | scriptEnded
deriving DecidableEq

/-- The per-tool-call loop of SubAgent.execute: execute and append the
tool-result turn for each call in order (an unknown tool name makes
execute_tool raise, which propagates). -/
def subCallsLoop (reg : ToolRegistry) (conv : List Turn) :
    List ToolCall → Except PyExc (List Turn)
  | [] => .ok conv
  | c :: rest =>
    match execute_tool reg c.name c.input with
    | .error e => .error e
    | .ok result => subCallsLoop reg (conv ++ [Turn.toolResultMsg c.id result]) rest

/-- The for-loop of SubAgent.execute over max_steps, consuming one scripted
response per step; a response without tool calls ends the loop with its text
as the sub-task result. -/
def subLoop (reg : ToolRegistry) (agentName : String) :
    Nat → List Turn → List (List Turn) → List (List Block) →
    SubOutcome × List (List Turn)
  | 0, _conv, trace, _script => (.maxSteps agentName, trace)
  | n + 1, conv, trace, script =>
    match script with
    | [] => (.scriptEnded, trace)
    | response :: rest =>
      let trace1 := trace ++ [conv]
      let conv1 := conv ++ [Turn.assistantMsg response]
      let toolCalls := extract_tool_calls response
      if toolCalls = [] then (.finished (extract_text response), trace1)
      else
        match subCallsLoop reg conv1 toolCalls with
        | .error e => (.crashed e, trace1)
        | .ok conv2 => subLoop reg agentName n conv2 trace1 rest

/-- SubAgent.execute (max_steps defaults to 10 at the call sites). -/
def sub_execute (reg : ToolRegistry) (agentName subtask : String)
    (maxSteps : Nat) (script : List (List Block)) :
    SubOutcome × List (List Turn) :=
  subLoop reg agentName maxSteps
    [Turn.userMsg ("Subtask: " ++ subtask
      ++ "\n\nPlease accomplish this subtask using your specialized capabilities.")]
    [] script

/-! ## The tool-use/tool-result pairing discipline
A checker for the conversation invariant: scanning the turns in order, an
assistant turn may only arrive when no tool use is pending and opens its
tool_use ids; a tool-result turn must match one pending id.  A conversation
is well paired when the scan succeeds and ends with nothing pending. -/

/-- The tool_use ids of an assistant turn, in order. -/
def toolUseIds : List Block → List String
  | [] => []
  | .textBlock _ :: rest => toolUseIds rest
  | .toolUseBlock id _ _ :: rest => id :: toolUseIds rest

/-- One turn of the pairing scan; none means the discipline was broken. -/
def pairStep : Option (List String) → Turn → Option (List String)
  | none, _ => none
  | some opens, .userMsg _ => some opens
  | some opens, .assistantMsg content =>
    if opens.isEmpty then some (toolUseIds content) else none
  | some opens, .toolResultMsg id _ =>
    if id ∈ opens then some (opens.erase id) else none

/-- The pairing scan over a conversation. -/
def pairScan (c : List Turn) : Option (List String) := c.foldl pairStep (some [])

/-- A conversation in which every tool-invocation turn is followed by exactly
one matching tool-result turn before the next assistant turn, with nothing
left pending. -/
def WellPaired (c : List Turn) : Prop := pairScan c = some []

/-! # Theorems -/

/-! ## Scan-automaton characterisations -/

theorem icRun_nil (st : ScanSt) : icRun st [] = st := rfl

theorem icRun_cons (st : ScanSt) (c : Char) (l : List Char) :
    icRun st (c :: l) = icRun (icStep st c) l := rfl

theorem commaFires_iff (st : ScanSt) (c : Char) :
    commaFires st c = true ↔ c = ',' ∧ st.inQuotes = false ∧ st.brackets = 0 := by
  simp [commaFires, Bool.and_eq_true, decide_eq_true_eq, Bool.not_eq_true',
    beq_iff_eq, and_assoc]

/-- The early-return comma scan fires on some input character iff the input
decomposes around a comma whose prefix drives the automaton to a state
outside quotes and brackets. -/
theorem icScan_iff (l : List Char) (st : ScanSt) :
    icScan st l = true ↔
      ∃ pfx sfx, l = pfx ++ ',' :: sfx ∧
        (icRun st pfx).inQuotes = false ∧ (icRun st pfx).brackets = 0 := by
  induction l generalizing st with
  | nil =>
    simp only [icScan]
    constructor
    · intro h; exact absurd h (by simp)
    · rintro ⟨pfx, sfx, h, -, -⟩
      exact absurd h (by cases pfx <;> simp)
  | cons c rest ih =>
    rw [icScan, Bool.or_eq_true, commaFires_iff, ih (icStep st c)]
    constructor
    · rintro (⟨hc, hq, hb⟩ | ⟨pfx, sfx, hl, hq, hb⟩)
      · subst hc
        exact ⟨[], rest, rfl, by simpa [icRun_nil] using hq,
          by simpa [icRun_nil] using hb⟩
      · exact ⟨c :: pfx, sfx, by rw [List.cons_append, hl],
          by simpa [icRun_cons] using hq, by simpa [icRun_cons] using hb⟩
    · rintro ⟨pfx, sfx, hl, hq, hb⟩
      cases pfx with
      | nil =>
        simp only [List.nil_append, List.cons.injEq] at hl
        exact Or.inl ⟨hl.1, by simpa [icRun_nil] using hq,
          by simpa [icRun_nil] using hb⟩
      | cons p ps =>
        simp only [List.cons_append, List.cons.injEq] at hl
        obtain ⟨hp, hrest⟩ := hl
        subst hp
        exact Or.inr ⟨ps, sfx, hrest, by simpa [icRun_cons] using hq,
          by simpa [icRun_cons] using hb⟩

theorem hRun_nil (st : HScanSt) : hRun st [] = st := rfl

theorem hRun_cons (st : HScanSt) (c : Char) (l : List Char) :
    hRun st (c :: l) = hRun (hStep st c) l := rfl

theorem hCommaFires_iff (st : HScanSt) (c : Char) :
    hCommaFires st c = true ↔ c = ',' ∧ st.inQuotes = false ∧ st.brackets = 0 := by
  simp [hCommaFires, Bool.and_eq_true, decide_eq_true_eq, Bool.not_eq_true',
    beq_iff_eq, and_assoc]

/-- The handler-layer comma scan fires iff the input decomposes around a
comma that its own automaton places outside quotes and at depth zero. -/
theorem hScan_iff (l : List Char) (st : HScanSt) :
    hScan st l = true ↔
      ∃ pfx sfx, l = pfx ++ ',' :: sfx ∧
        (hRun st pfx).inQuotes = false ∧ (hRun st pfx).brackets = 0 := by
  induction l generalizing st with
  | nil =>
    simp only [hScan]
    constructor
    · intro h; exact absurd h (by simp)
    · rintro ⟨pfx, sfx, h, -, -⟩
      exact absurd h (by cases pfx <;> simp)
  | cons c rest ih =>
    rw [hScan, Bool.or_eq_true, hCommaFires_iff, ih (hStep st c)]
    constructor
    · rintro (⟨hc, hq, hb⟩ | ⟨pfx, sfx, hl, hq, hb⟩)
      · subst hc
        exact ⟨[], rest, rfl, by simpa [hRun_nil] using hq,
          by simpa [hRun_nil] using hb⟩
      · exact ⟨c :: pfx, sfx, by rw [List.cons_append, hl],
          by simpa [hRun_cons] using hq, by simpa [hRun_cons] using hb⟩
    · rintro ⟨pfx, sfx, hl, hq, hb⟩
      cases pfx with
      | nil =>
        simp only [List.nil_append, List.cons.injEq] at hl
        exact Or.inl ⟨hl.1, by simpa [hRun_nil] using hq,
          by simpa [hRun_nil] using hb⟩
      | cons p ps =>
        simp only [List.cons_append, List.cons.injEq] at hl
        obtain ⟨hp, hrest⟩ := hl
        subst hp
        exact Or.inr ⟨ps, sfx, hrest, by simpa [hRun_cons] using hq,
          by simpa [hRun_cons] using hb⟩

/-- icScan decides the declarative unscoped-comma predicate. -/
theorem icScan_iff_UnscopedComma (l : List Char) :
    icScan icInit l = true ↔ UnscopedComma l := icScan_iff l icInit

/-- hScan decides the handler-layer unscoped-comma predicate. -/
theorem hScan_iff_HUnscopedComma (l : List Char) :
    hScan hInit l = true ↔ HUnscopedComma l := hScan_iff l hInit

/-! ## Substring characterisation -/

theorem leadsWith_iff (n : List Char) :
    ∀ h : List Char, leadsWith n h = true ↔ ∃ t, h = n ++ t := by
  induction n with
  | nil => intro h; simp [leadsWith]
  | cons a as ih =>
    intro h
    cases h with
    | nil =>
      simp only [leadsWith]
      constructor
      · intro hf; exact absurd hf (by simp)
      · rintro ⟨t, ht⟩; exact absurd ht (by simp)
    | cons b bs =>
      rw [leadsWith, Bool.and_eq_true, decide_eq_true_eq, ih bs]
      constructor
      · rintro ⟨hab, t, ht⟩
        exact ⟨t, by rw [List.cons_append, hab, ht]⟩
      · rintro ⟨t, ht⟩
        simp only [List.cons_append, List.cons.injEq] at ht
        exact ⟨ht.1.symm, t, ht.2⟩

theorem containsSubList_iff (n : List Char) :
    ∀ h : List Char, containsSubList n h = true ↔ ∃ pre post, h = pre ++ n ++ post := by
  intro h
  induction h with
  | nil =>
    rw [containsSubList, leadsWith_iff]
    constructor
    · rintro ⟨t, ht⟩
      exact ⟨[], t, by simpa using ht⟩
    · rintro ⟨pre, post, hp⟩
      have h1 : pre = [] ∧ n ++ post = [] := by
        have := hp.symm
        rw [List.append_assoc] at this
        exact List.append_eq_nil.mp this
      have h2 := List.append_eq_nil.mp h1.2
      exact ⟨[], by rw [h2.1]; rfl⟩
  | cons c rest ih =>
    rw [containsSubList, Bool.or_eq_true, leadsWith_iff, ih]
    constructor
    · rintro (⟨t, ht⟩ | ⟨pre, post, hp⟩)
      · exact ⟨[], t, by simpa using ht⟩
      · exact ⟨c :: pre, post, by rw [hp]; rfl⟩
    · rintro ⟨pre, post, hp⟩
      cases pre with
      | nil => exact Or.inl ⟨post, by simpa using hp⟩
      | cons p ps =>
        simp only [List.cons_append, List.append_assoc, List.cons.injEq] at hp
        exact Or.inr ⟨ps, post, by rw [hp.2, List.append_assoc]⟩

theorem strContains_iff (hay needle : String) :
    strContains hay needle = true ↔
      ∃ pre post, hay.data = pre ++ needle.data ++ post :=
  containsSubList_iff needle.data hay.data

/-! ## Truncation loop characterisation -/

/-- The truncation loop keeps a prefix of the lines whose accumulated
per-line estimates stay within the limit, and appends the omission marker
exactly when lines were dropped. -/
theorem truncAux_spec (tokenLimit totalLines : Nat) (lines : List String) :
    ∀ (keptCount currentTokens : Nat), currentTokens ≤ tokenLimit →
      ∃ kept rest, lines = kept ++ rest ∧
        currentTokens + (kept.map (fun l => l.length / CHARS_PER_TOKEN)).sum
          ≤ tokenLimit ∧
        ((rest = [] ∧
            truncAux tokenLimit totalLines keptCount currentTokens lines = kept) ∨
         (rest ≠ [] ∧
            truncAux tokenLimit totalLines keptCount currentTokens lines
              = kept ++ [truncMarker (totalLines - (keptCount + kept.length))])) := by
  induction lines with
  | nil =>
    intro keptCount currentTokens hle
    exact ⟨[], [], rfl, by simpa using hle, Or.inl ⟨rfl, rfl⟩⟩
  | cons line rest0 ih =>
    intro keptCount currentTokens hle
    by_cases h : tokenLimit < currentTokens + line.length / CHARS_PER_TOKEN
    · refine ⟨[], line :: rest0, rfl, by simpa using hle, Or.inr ⟨by simp, ?_⟩⟩
      simp only [truncAux, if_pos h, List.nil_append, List.length_nil,
        Nat.add_zero]
    · have hle' : currentTokens + line.length / CHARS_PER_TOKEN ≤ tokenLimit :=
        Nat.le_of_not_lt h
      obtain ⟨kept, rest, hsplit, hsum, hcase⟩ :=
        ih (keptCount + 1) (currentTokens + line.length / CHARS_PER_TOKEN) hle'
      refine ⟨line :: kept, rest, by rw [List.cons_append, hsplit], ?_, ?_⟩
      · simpa [Nat.add_assoc] using hsum
      · have hunf : truncAux tokenLimit totalLines keptCount currentTokens
            (line :: rest0)
            = line :: truncAux tokenLimit totalLines (keptCount + 1)
                (currentTokens + line.length / CHARS_PER_TOKEN) rest0 := by
          simp only [truncAux, if_neg h]
        rcases hcase with ⟨hre, hout⟩ | ⟨hre, hout⟩
        · exact Or.inl ⟨hre, by rw [hunf, hout]⟩
        · refine Or.inr ⟨hre, ?_⟩
          rw [hunf, hout, List.cons_append]
          have : keptCount + 1 + kept.length = keptCount + (line :: kept).length := by
            simp [List.length_cons]; omega
          rw [this]

/-! ## Stable descending sort lemmas -/

theorem insertDesc_perm (x : Candidate) (l : List Candidate) :
    List.Perm (insertDesc x l) (x :: l) := by
  induction l with
  | nil => rfl
  | cons y ys ih =>
    rw [insertDesc]
    split
    · rfl
    · exact (List.Perm.cons y ih).trans (List.Perm.swap x y ys)

theorem sortByPriority_perm (l : List Candidate) :
    List.Perm (sortByPriority l) l := by
  induction l with
  | nil => rfl
  | cons x xs ih =>
    rw [sortByPriority]
    exact (insertDesc_perm x (sortByPriority xs)).trans (List.Perm.cons x ih)

theorem mem_sortByPriority {a : Candidate} {l : List Candidate} :
    a ∈ sortByPriority l ↔ a ∈ l :=
  (sortByPriority_perm l).mem_iff

theorem pairwise_insertDesc (x : Candidate) (l : List Candidate)
    (h : List.Pairwise (fun u v => v.priority ≤ u.priority) l) :
    List.Pairwise (fun u v => v.priority ≤ u.priority) (insertDesc x l) := by
  induction l with
  | nil => simp [insertDesc]
  | cons y ys ih =>
    rw [List.pairwise_cons] at h
    rw [insertDesc]
    split
    · rename_i hle
      rw [List.pairwise_cons]
      refine ⟨?_, List.pairwise_cons.mpr h⟩
      intro z hz
      rcases List.mem_cons.mp hz with hz | hz
      · exact hz ▸ hle
      · exact (h.1 z hz).trans hle
    · rename_i hgt
      have hxy : x.priority ≤ y.priority :=
        le_of_lt (lt_of_not_le hgt)
      rw [List.pairwise_cons]
      refine ⟨?_, ih h.2⟩
      intro z hz
      have := (insertDesc_perm x ys).mem_iff.mp hz
      rcases List.mem_cons.mp this with hz' | hz'
      · exact hz' ▸ hxy
      · exact h.1 z hz'

theorem sortByPriority_pairwise (l : List Candidate) :
    List.Pairwise (fun u v => v.priority ≤ u.priority) (sortByPriority l) := by
  induction l with
  | nil => simp [sortByPriority]
  | cons x xs ih => exact pairwise_insertDesc x (sortByPriority xs) ih

/-- In a descending list, any element strictly beating another precedes
every occurrence of it. -/
theorem pair_sublist_of_pairwise {a b : Candidate} :
    ∀ m : List Candidate,
      List.Pairwise (fun u v => v.priority ≤ u.priority) m →
      a ∈ m → b ∈ m → b.priority < a.priority → List.Sublist [a, b] m := by
  intro m
  induction m with
  | nil => intro _ ha; cases ha
  | cons x xs ih =>
    intro hp ha hb hlt
    rw [List.pairwise_cons] at hp
    rcases List.mem_cons.mp ha with hax | hax
    · subst hax
      rcases List.mem_cons.mp hb with hbx | hbx
      · exact absurd (hbx ▸ hlt) (lt_irrefl _)
      · exact List.Sublist.cons₂ a (List.singleton_sublist.mpr hbx)
    · rcases List.mem_cons.mp hb with hbx | hbx
      · exact absurd hlt (not_lt_of_le (hbx ▸ hp.1 a hax))
      · exact List.Sublist.cons x (ih hp.2 hax hbx hlt)

/-- Strictly higher priority means strictly earlier in the sorted order. -/
theorem sort_pair_sublist_of_gt {a b : Candidate} {l : List Candidate}
    (ha : a ∈ l) (hb : b ∈ l) (hlt : b.priority < a.priority) :
    List.Sublist [a, b] (sortByPriority l) :=
  pair_sublist_of_pairwise (sortByPriority l) (sortByPriority_pairwise l)
    (mem_sortByPriority.mpr ha) (mem_sortByPriority.mpr hb) hlt

theorem filter_insertDesc_of_eq (x : Candidate) (p : ℚ) (hx : x.priority = p) :
    ∀ s : List Candidate,
      (insertDesc x s).filter (fun c => decide (c.priority = p))
        = x :: s.filter (fun c => decide (c.priority = p)) := by
  intro s
  induction s with
  | nil => simp [insertDesc, hx]
  | cons y ys ih =>
    rw [insertDesc]
    split
    · rename_i hle
      simp [List.filter_cons, hx]
    · rename_i hgt
      have hyp : y.priority ≠ p := by
        intro hcontra
        exact hgt (le_of_eq (hcontra.trans hx.symm))
      simp only [List.filter_cons, decide_eq_true_eq]
      rw [if_neg hyp, if_neg hyp, ih]

theorem filter_insertDesc_of_ne (x : Candidate) (p : ℚ) (hx : x.priority ≠ p) :
    ∀ s : List Candidate,
      (insertDesc x s).filter (fun c => decide (c.priority = p))
        = s.filter (fun c => decide (c.priority = p)) := by
  intro s
  induction s with
  | nil => simp [insertDesc, hx]
  | cons y ys ih =>
    rw [insertDesc]
    split
    · simp [List.filter_cons, hx]
    · simp only [List.filter_cons]
      rw [ih]

/-- Sorting by priority permutes nothing within one priority class. -/
theorem sortByPriority_filter (l : List Candidate) (p : ℚ) :
    (sortByPriority l).filter (fun c => decide (c.priority = p))
      = l.filter (fun c => decide (c.priority = p)) := by
  induction l with
  | nil => rfl
  | cons x xs ih =>
    rw [sortByPriority]
    by_cases hx : x.priority = p
    · rw [filter_insertDesc_of_eq x p hx (sortByPriority xs), ih,
        List.filter_cons, if_pos (by simpa using hx)]
    · rw [filter_insertDesc_of_ne x p hx (sortByPriority xs), ih,
        List.filter_cons, if_neg (by simpa using hx)]

/-- Equal-priority candidates keep their document order through the sort
(stability of the ranking). -/
theorem sort_pair_sublist_of_eq {x y : Candidate} {l : List Candidate}
    (h : List.Sublist [x, y] l) (hpr : x.priority = y.priority) :
    List.Sublist [x, y] (sortByPriority l) := by
  have hfil : List.Sublist ([x, y].filter
      (fun c => decide (c.priority = y.priority)))
      (l.filter (fun c => decide (c.priority = y.priority))) :=
    List.Sublist.filter _ h
  have hxy : [x, y].filter (fun c => decide (c.priority = y.priority)) = [x, y] := by
    simp [List.filter_cons, hpr]
  rw [hxy, ← sortByPriority_filter l y.priority] at hfil
  exact hfil.trans (List.filter_sublist _)

/-! ## Tree-walk lemmas -/

theorem mem_walkList_iff (ds : List Dom) (pt : String) (x : String × Dom) :
    x ∈ walkList pt ds ↔ ∃ d ∈ ds, x ∈ walkAux pt d := by
  induction ds with
  | nil => simp [walkList]
  | cons d rest ih =>
    rw [walkList, List.mem_append, ih]
    constructor
    · rintro (h | ⟨d', hd', hx⟩)
      · exact ⟨d, List.mem_cons_self d rest, h⟩
      · exact ⟨d', List.mem_cons_of_mem d hd', hx⟩
    · rintro ⟨d', hd', hx⟩
      rcases List.mem_cons.mp hd' with h | h
      · exact Or.inl (h ▸ hx)
      · exact Or.inr ⟨d', h, hx⟩

theorem child_pair_mem_walkList (t : String) (ks : List Dom) (ct : String)
    (cv : Bool) (ck : List Dom) (hc : Dom.el ct cv ck ∈ ks) :
    (t, Dom.el ct cv ck) ∈ walkList t ks := by
  refine (mem_walkList_iff ks t _).mpr ⟨Dom.el ct cv ck, hc, ?_⟩
  rw [walkAux]
  exact List.mem_cons_self _ _

theorem walkAux_closed (n : Nat) : ∀ (d : Dom), sizeOf d ≤ n →
    ∀ pt q t v ks x, (q, Dom.el t v ks) ∈ walkAux pt d →
      x ∈ walkList t ks → x ∈ walkAux pt d := by
  induction n with
  | zero =>
    intro d hd
    cases d with
    | txt s => intro pt q t v ks x h; rw [walkAux] at h; cases h
    | el t' v' ks' => simp [Dom.el.sizeOf_spec] at hd
  | succ m ih =>
    intro d hd
    cases d with
    | txt s => intro pt q t v ks x h; rw [walkAux] at h; cases h
    | el t' v' ks' =>
      intro pt q t v ks x h hx
      rw [walkAux] at h ⊢
      rcases List.mem_cons.mp h with h | h
      · obtain ⟨hq, he⟩ := Prod.ext_iff.mp h
        simp only at hq he
        injection he with ht hv hk
        subst ht; subst hk
        exact List.mem_cons_of_mem _ hx
      · obtain ⟨k, hk, hmem⟩ := (mem_walkList_iff ks' t' _).mp h
        have hsz : sizeOf k ≤ m := by
          have h1 : sizeOf k < sizeOf ks' := List.sizeOf_lt_of_mem hk
          have h2 : sizeOf (Dom.el t' v' ks') ≤ m + 1 := hd
          simp [Dom.el.sizeOf_spec] at h2
          omega
        have := ih k hsz t' q t v ks x hmem hx
        exact List.mem_cons_of_mem _ ((mem_walkList_iff ks' t' x).mpr ⟨k, hk, this⟩)

/-- If an element is walked, each of its element children is walked with the
element's tag as parent tag. -/
theorem walker_child_mem {root : Dom} {q t : String} {v : Bool} {ks : List Dom}
    {ct : String} {cv : Bool} {ck : List Dom}
    (hb : (q, Dom.el t v ks) ∈ walker root) (hc : Dom.el ct cv ck ∈ ks) :
    (t, Dom.el ct cv ck) ∈ walker root := by
  cases root with
  | txt s => rw [walker] at hb; cases hb
  | el rt rv rks =>
    rw [walker] at hb ⊢
    obtain ⟨k, hk, hmem⟩ := (mem_walkList_iff rks rt _).mp hb
    have hx := walkAux_closed (sizeOf k) k (le_refl _) rt q t v ks
      (t, Dom.el ct cv ck) hmem (child_pair_mem_walkList t ks ct cv ck hc)
    exact (mem_walkList_iff rks rt _).mpr ⟨k, hk, hx⟩

/-! ## Candidate membership and priority bounds -/

theorem mem_mkCands (query : String) :
    ∀ (pairs : List (String × Dom)) (idx : Nat) (pt t : String) (v : Bool)
      (ks : List Dom),
      (pt, Dom.el t v ks) ∈ pairs →
      strContains (textContent (Dom.el t v ks)) query = true → v = true →
      ∃ i, (⟨i, t, pt, getPriority query t pt ks⟩ : Candidate)
        ∈ mkCands query idx pairs := by
  intro pairs
  induction pairs with
  | nil => intro idx pt t v ks h; cases h
  | cons p rest ih =>
    intro idx pt t v ks hmem htext hv
    rcases List.mem_cons.mp hmem with h | h
    · refine ⟨idx, ?_⟩
      rw [mkCands]
      apply List.mem_append_left
      subst hv
      subst h
      simp only [candFromPair]
      rw [if_pos (by rw [htext]; rfl)]
      exact List.mem_singleton.mpr rfl
    · obtain ⟨i, hi⟩ := ih (idx + 1) pt t v ks h htext hv
      refine ⟨i, ?_⟩
      rw [mkCands]
      exact List.mem_append_right _ hi

/-- data of a string concatenation. -/
theorem str_data_append (a b : String) : (a ++ b).data = a.data ++ b.data := rfl

theorem textContentList_decomp :
    ∀ (ks : List Dom) (c : Dom), c ∈ ks →
      ∃ pre post, (textContentList ks).data
        = pre ++ (textContent c).data ++ post := by
  intro ks
  induction ks with
  | nil => intro c h; cases h
  | cons k rest ih =>
    intro c hc
    rcases List.mem_cons.mp hc with h | h
    · subst h
      exact ⟨[], (textContentList rest).data, by
        rw [textContentList, str_data_append]; simp⟩
    · obtain ⟨pre, post, hdec⟩ := ih c h
      refine ⟨(textContent k).data ++ pre, post, ?_⟩
      rw [textContentList, str_data_append, hdec]
      simp [List.append_assoc]

/-- A query contained in a child's textContent is contained in the
parent's. -/
theorem strContains_of_child {ks : List Dom} {c : Dom} {q : String}
    (hc : c ∈ ks) (h : strContains (textContent c) q = true) :
    strContains (textContentList ks) q = true := by
  rw [strContains_iff] at h ⊢
  obtain ⟨p1, p2, hd⟩ := h
  obtain ⟨a, b, hks⟩ := textContentList_decomp ks c hc
  rw [hks, hd]
  exact ⟨a ++ p1, p2 ++ b, by simp [List.append_assoc]⟩

/-- Any native interactive element scores at least 70. -/
theorem getPriority_interactive_ge (query tag parentTag : String)
    (kids : List Dom) (ht : tag ∈ interactiveTags) :
    (70 : ℚ) ≤ getPriority query tag parentTag kids := by
  have h3 : tag ∉ genericInline := by
    simp only [interactiveTags, List.mem_cons, List.not_mem_nil, or_false] at ht
    rcases ht with h | h | h | h | h <;> subst h <;> decide
  have h4 : tag ∉ genericContainers := by
    simp only [interactiveTags, List.mem_cons, List.not_mem_nil, or_false] at ht
    rcases ht with h | h | h | h | h <;> subst h <;> decide
  have h3' : ¬(tag ∈ genericInline ∧ parentTag ∈ interactiveTags) :=
    fun hcon => h3 hcon.1
  unfold getPriority
  rw [if_pos ht, if_neg h3', if_neg h4]
  have hmin : min (((textContentList kids).length : ℚ) / 100) 30 ≤ 30 :=
    min_le_right _ _
  dsimp only
  split <;> linarith

/-- A generic inline/text element directly inside a native interactive
element scores at most -150. -/
theorem getPriority_inline_child_le (query tag parentTag : String)
    (kids : List Dom) (ht : tag ∈ genericInline)
    (hp : parentTag ∈ interactiveTags) :
    getPriority query tag parentTag kids ≤ (-150 : ℚ) := by
  have h1 : tag ∉ interactiveTags := by
    simp only [genericInline, List.mem_cons, List.not_mem_nil, or_false] at ht
    rcases ht with h | h | h <;> subst h <;> decide
  have hpos : tag ∈ genericInline ∧ parentTag ∈ interactiveTags := ⟨ht, hp⟩
  unfold getPriority
  rw [if_neg h1, if_pos hpos]
  have hmin : (0 : ℚ) ≤ min (((textContentList kids).length : ℚ) / 100) 30 := by
    apply le_min
    · positivity
    · norm_num
  dsimp only
  split <;> split <;> linarith

/-! ## Pairing-scan lemmas -/

theorem pairScan_append (c d : List Turn) :
    pairScan (c ++ d) = d.foldl pairStep (pairScan c) := by
  rw [pairScan, pairScan, List.foldl_append]

theorem pairScan_snoc (c : List Turn) (t : Turn) :
    pairScan (c ++ [t]) = pairStep (pairScan c) t := by
  rw [pairScan_append]; rfl

theorem pairStep_none (t : Turn) : pairStep none t = none := by
  cases t <;> rfl

/-- Appending a plain user message never changes the pairing state. -/
theorem pairScan_user (c : List Turn) (s : String) :
    pairScan (c ++ [Turn.userMsg s]) = pairScan c := by
  rw [pairScan_snoc]
  cases h : pairScan c with
  | none => rfl
  | some opens => rfl

/-- Appending the matching tool result discharges the head pending id. -/
theorem pairScan_toolResult (c : List Turn) (id content : String)
    (l : List String) (h : pairScan c = some (id :: l)) :
    pairScan (c ++ [Turn.toolResultMsg id content]) = some l := by
  rw [pairScan_snoc, h]
  simp [pairStep, List.erase_cons_head]

/-- Appending an assistant turn onto a fully paired conversation opens
exactly its tool_use ids. -/
theorem pairScan_assistant (c : List Turn) (content : List Block)
    (h : pairScan c = some []) :
    pairScan (c ++ [Turn.assistantMsg content]) = some (toolUseIds content) := by
  rw [pairScan_snoc, h]
  simp [pairStep]

theorem toolUseIds_eq_map (content : List Block) :
    toolUseIds content = (extract_tool_calls content).map ToolCall.id := by
  induction content with
  | nil => rfl
  | cons b rest ih =>
    cases b with
    | textBlock s => simpa [toolUseIds, extract_tool_calls] using ih
    | toolUseBlock id name input =>
      simpa [toolUseIds, extract_tool_calls] using ih

/-! ## Coordinator-loop pairing invariants -/

/-- Processing one non-terminal tool call discharges its pending id, keeps
all later pending ids, and leaves the trace untouched, on every path
(plain result, confirmation, intervention, failure hint, context
refresh). -/
theorem applyFailurePolicy_spec (st : CoordSt) (b : Bool) :
    pairScan (applyFailurePolicy st b).conversation = pairScan st.conversation
      ∧ (applyFailurePolicy st b).trace = st.trace := by
  rw [applyFailurePolicy]
  split
  · exact ⟨rfl, rfl⟩
  · split
    · exact ⟨pairScan_user _ _, rfl⟩
    · exact ⟨rfl, rfl⟩

theorem appendInterventionCtx_spec (env : CoordEnv) (b : Bool) (st : CoordSt) :
    pairScan (appendInterventionCtx env b st).conversation
        = pairScan st.conversation
      ∧ (appendInterventionCtx env b st).trace = st.trace := by
  rw [appendInterventionCtx]
  split
  · split
    · exact ⟨pairScan_user _ _, rfl⟩
    · exact ⟨rfl, rfl⟩
  · exact ⟨rfl, rfl⟩

theorem appendRefreshCtx_spec (env : CoordEnv) (name : String) (st : CoordSt) :
    pairScan (appendRefreshCtx env name st).conversation
        = pairScan st.conversation
      ∧ (appendRefreshCtx env name st).trace = st.trace := by
  rw [appendRefreshCtx]
  split
  · split
    · exact ⟨pairScan_user _ _, rfl⟩
    · exact ⟨rfl, rfl⟩
  · exact ⟨rfl, rfl⟩

theorem processToolCall_next (env : CoordEnv) (st : CoordSt) (call : ToolCall)
    (ids : List String) (st' : CoordSt)
    (h : pairScan st.conversation = some (call.id :: ids))
    (hres : processToolCall env st call = .next st') :
    pairScan st'.conversation = some ids ∧ st'.trace = st.trace := by
  rw [processToolCall] at hres
  split at hres
  · cases hres
  · split at hres
    · cases hres
    · rename_i result0 heq
      dsimp only at hres
      cases hres
      obtain ⟨hr1, ht1⟩ := appendRefreshCtx_spec env call.name
        (appendInterventionCtx env
          (pyStartsWith (confirmIntercept env result0) "HUMAN_INTERVENTION_REQUIRED:")
          (applyFailurePolicy _ _))
      obtain ⟨hr2, ht2⟩ := appendInterventionCtx_spec env
        (pyStartsWith (confirmIntercept env result0) "HUMAN_INTERVENTION_REQUIRED:")
        (applyFailurePolicy _ _)
      obtain ⟨hr3, ht3⟩ := applyFailurePolicy_spec
        { st with conversation := st.conversation
            ++ [Turn.toolResultMsg call.id
              (if pyStartsWith (confirmIntercept env result0)
                  "HUMAN_INTERVENTION_REQUIRED:" = true
                then interventionDoneMsg else confirmIntercept env result0)] }
        (!pyStartsWith (if pyStartsWith (confirmIntercept env result0)
              "HUMAN_INTERVENTION_REQUIRED:" = true
            then interventionDoneMsg
            else confirmIntercept env result0) "Error"
          && !pyStartsWith (if pyStartsWith (confirmIntercept env result0)
              "HUMAN_INTERVENTION_REQUIRED:" = true
            then interventionDoneMsg
            else confirmIntercept env result0) "Failed")
      refine ⟨?_, ?_⟩
      · rw [hr1, hr2, hr3]
        exact pairScan_toolResult _ _ _ _ h
      · rw [ht1, ht2, ht3]

/-- Processing a whole batch of tool calls whose ids are exactly the pending
ones leaves a fully paired conversation and the trace untouched. -/
theorem processToolCalls_next :
    ∀ (calls : List ToolCall) (env : CoordEnv) (st : CoordSt),
      pairScan st.conversation = some (calls.map ToolCall.id) →
      ∀ st', processToolCalls env st calls = .next st' →
        pairScan st'.conversation = some [] ∧ st'.trace = st.trace := by
  intro calls
  induction calls with
  | nil =>
    intro env st h st' hres
    rw [processToolCalls] at hres
    cases hres
    exact ⟨h, rfl⟩
  | cons c rest ih =>
    intro env st h st' hres
    rw [processToolCalls] at hres
    cases heq : processToolCall env st c with
    | next st1 =>
      rw [heq] at hres
      obtain ⟨h1, ht1⟩ := processToolCall_next env st c (rest.map ToolCall.id)
        st1 h heq
      obtain ⟨h2, ht2⟩ := ih env st1 h1 st' hres
      exact ⟨h2, ht2.trans ht1⟩
    | finish s => rw [heq] at hres; cases hres
    | fault e => rw [heq] at hres; cases hres

/-- Every conversation the coordinator loop passes to the model is well
paired, provided the loop starts that way. -/
theorem coordLoop_trace (script : List (List Block)) :
    ∀ (env : CoordEnv) (st : CoordSt),
      pairScan st.conversation = some [] →
      (∀ c ∈ st.trace, WellPaired c) →
      ∀ c ∈ (coordLoop env st script).2, WellPaired c := by
  induction script with
  | nil =>
    intro env st hconv htrace c hc
    rw [coordLoop] at hc
    split at hc
    · exact htrace c hc
    · exact htrace c hc
  | cons response rest ih =>
    intro env st hconv htrace c hc
    have htrace' : ∀ c ∈ st.trace ++ [st.conversation], WellPaired c := by
      intro c hc
      rcases List.mem_append.mp hc with h | h
      · exact htrace c h
      · rw [List.mem_singleton.mp h]; exact hconv
    rw [coordLoop] at hc
    split at hc
    · exact htrace c hc
    · dsimp only at hc
      split at hc
      · rename_i htc
        split at hc
        · exact htrace' c hc
        · split at hc
          · exact htrace' c hc
          · rename_i hint hhint
            refine ih env _ ?_ htrace' c hc
            dsimp only
            rw [pairScan_user, pairScan_assistant _ _ hconv, toolUseIds_eq_map,
              htc]
            rfl
      · rename_i htc
        have hpair : pairScan (st.conversation ++ [Turn.assistantMsg response])
            = some ((extract_tool_calls response).map ToolCall.id) := by
          rw [pairScan_assistant _ _ hconv, toolUseIds_eq_map]
        split at hc
        · exact htrace' c hc
        · exact htrace' c hc
        · rename_i st3 hsteps
          obtain ⟨h3, ht3⟩ := processToolCalls_next (extract_tool_calls response)
            env _ hpair st3 hsteps
          refine ih env st3 h3 ?_ c hc
          rw [ht3]
          exact htrace'

/-- The sub-agent per-response loop preserves full pairing. -/
theorem subCallsLoop_pairing :
    ∀ (calls : List ToolCall) (reg : ToolRegistry) (conv : List Turn),
      pairScan conv = some (calls.map ToolCall.id) →
      ∀ conv', subCallsLoop reg conv calls = .ok conv' →
        pairScan conv' = some [] := by
  intro calls
  induction calls with
  | nil =>
    intro reg conv h conv' hres
    rw [subCallsLoop] at hres
    cases hres
    exact h
  | cons c rest ih =>
    intro reg conv h conv' hres
    rw [subCallsLoop] at hres
    split at hres
    · cases hres
    · rename_i result heq
      exact ih reg _ (pairScan_toolResult _ _ _ _ h) conv' hres

/-- Every conversation the sub-agent loop passes to the model is well
paired. -/
theorem subLoop_trace (n : Nat) :
    ∀ (script : List (List Block)) (reg : ToolRegistry) (agentName : String)
      (conv : List Turn) (trace : List (List Turn)),
      pairScan conv = some [] →
      (∀ c ∈ trace, WellPaired c) →
      ∀ c ∈ (subLoop reg agentName n conv trace script).2, WellPaired c := by
  induction n with
  | zero =>
    intro script reg agentName conv trace hconv htrace c hc
    exact htrace c hc
  | succ m ih =>
    intro script reg agentName conv trace hconv htrace c hc
    cases script with
    | nil => simp only [subLoop] at hc; exact htrace c hc
    | cons response rest =>
      simp only [subLoop] at hc
      have htrace' : ∀ c ∈ trace ++ [conv], WellPaired c := by
        intro c hc
        rcases List.mem_append.mp hc with h | h
        · exact htrace c h
        · rw [List.mem_singleton.mp h]; exact hconv
      split at hc
      · exact htrace' c hc
      · rename_i htc
        split at hc
        · exact htrace' c hc
        · rename_i conv2 hok
          refine ih rest reg agentName conv2 (trace ++ [conv]) ?_ htrace' c hc
          refine subCallsLoop_pairing (extract_tool_calls response) reg _ ?_
            conv2 hok
          rw [pairScan_assistant _ _ hconv, toolUseIds_eq_map]

/-! ## Claim theorems -/

/-- C1: switch_to_frame validates the selector, confirms attachment and
records the frame as the active scope, and switch_to_main_content clears it;
but every interaction primitive (click, typeText, hover, waitFor) resolves
its selector against the top-level page, not the recorded frame scope: the
recorded selector is never consulted (the only routing helper,
BrowserController._get_frame_or_page, is dead code).  This evaluates the
code on the failing scenario: after a successful switch to
iframe#payment-form, a click still targets the main page. -/
theorem frame_scope_recorded_but_ignored :
    ∃ st : FrameSt,
      switch_to_frame true ⟨none⟩ "iframe#payment-form" = .ok st ∧
      st.currentFrameSelector = some "iframe#payment-form" ∧
      get_frame_or_page st = DocScope.frameScoped "iframe#payment-form" ∧
      click_resolution_scope st = DocScope.mainPage ∧
      type_text_resolution_scope st = DocScope.mainPage ∧
      hover_resolution_scope st = DocScope.mainPage ∧
      wait_for_resolution_scope st = DocScope.mainPage ∧
      click_resolution_scope st ≠ get_frame_or_page st ∧
      (switch_to_main_content st).currentFrameSelector = none := by
  refine ⟨⟨some "iframe#payment-form"⟩, ?_, rfl, rfl, rfl, rfl, rfl, rfl,
    by decide, rfl⟩
  rfl

/-- C2: the Safe-Navigation Guard returns safe for every address written in
the scheme-colon form of a blacklisted scheme (javascript:, data:,
vbscript:, about:), in any letter case, because the early no-scheme check
(no "://" present) returns safe before the blacklist is consulted; this
holds for every hostname/ip oracle.  For contrast, the slashed forms and the
private-host checks do fire. -/
theorem guard_passes_blacklisted_scheme_colon_forms :
    (∀ ph ip, is_safe_url ph ip "javascript:alert(1)" = true) ∧
    (∀ ph ip, is_safe_url ph ip "JaVaScRiPt:alert(document.cookie)" = true) ∧
    (∀ ph ip, is_safe_url ph ip "data:text/html,<h1>x</h1>" = true) ∧
    (∀ ph ip, is_safe_url ph ip "vbscript:msgbox" = true) ∧
    (∀ ph ip, is_safe_url ph ip "about:blank" = true) ∧
    (∀ ph ip, is_safe_url ph ip "example.com/page" = true) ∧
    (∀ ph ip, is_safe_url ph ip "file:///etc/passwd" = false) ∧
    (∀ ph ip, is_safe_url ph ip "javascript://x" = false) ∧
    is_safe_url (fun _ => some "127.0.0.1") (fun _ => some ⟨false, true, false⟩)
      "http://127.0.0.1/" = false ∧
    is_safe_url (fun _ => some "localhost") (fun _ => none)
      "http://localhost:8080/admin" = false := by
  exact ⟨fun ph ip => rfl, fun ph ip => rfl, fun ph ip => rfl, fun ph ip => rfl,
    fun ph ip => rfl, fun ph ip => rfl, fun ph ip => rfl, fun ph ip => rfl,
    rfl, rfl⟩

/-- C3 counterexample: execute on an unregistered name raises ValueError
outward (the lookup happens before the try block), so the Dispatcher does
not convert every fault into a string. -/
theorem execute_tool_unknown_name_raises :
    execute_tool ⟨[]⟩ "navigate_to" []
      = .error (.valueError "Unknown tool: navigate_to") := rfl

/-- C3 amended: for every registered name, execute returns a string even
when the handler raises (the fault becomes a formatted error string); for
every unregistered name, execute itself raises ValueError from the
lookup. -/
theorem execute_tool_amended (reg : ToolRegistry) (name : String) (args : ArgMap) :
    (∀ t, reg.tools.lookup name = some t →
      execute_tool reg name args
        = .ok (match t.handler args with
            | .ok r => r
            | .error e => "Error executing tool " ++ name ++ ": " ++ pyExcMsg e)) ∧
    (reg.tools.lookup name = none →
      execute_tool reg name args = .error (.valueError ("Unknown tool: " ++ name))) := by
  constructor
  · intro t ht
    cases h : t.handler args with
    | ok r =>
      rw [execute_tool, get_tool, ht]
      show (match t.handler args with
        | Except.ok r => Except.ok r
        | Except.error e =>
          Except.ok ("Error executing tool " ++ name ++ ": " ++ pyExcMsg e))
        = Except.ok r
      rw [h]
    | error e =>
      rw [execute_tool, get_tool, ht]
      show (match t.handler args with
        | Except.ok r => Except.ok r
        | Except.error e =>
          Except.ok ("Error executing tool " ++ name ++ ": " ++ pyExcMsg e))
        = Except.ok ("Error executing tool " ++ name ++ ": " ++ pyExcMsg e)
      rw [h]
  · intro hnone
    rw [execute_tool, get_tool, hnone]
    rfl

/-- C3 amended, witness: a handler that raises yields an ok error string;
an unknown name yields the raised ValueError. -/
theorem execute_tool_amended_witness :
    execute_tool ⟨[("click", ⟨"click", "Click an element", fun _ =>
        .error (.typeError "boom")⟩)]⟩ "click" []
      = .ok "Error executing tool click: boom" ∧
    execute_tool ⟨[("click", ⟨"click", "Click an element", fun _ =>
        .error (.typeError "boom")⟩)]⟩ "navigte_to" []
      = .error (.valueError "Unknown tool: navigte_to") := by
  constructor
  · exact (execute_tool_amended ⟨[("click", ⟨"click", "Click an element",
      fun _ => .error (.typeError "boom")⟩)]⟩ "click" []).1 _ rfl
  · exact (execute_tool_amended ⟨[("click", ⟨"click", "Click an element",
      fun _ => .error (.typeError "boom")⟩)]⟩ "navigte_to" []).2 rfl

/-- C10: element discovery never raises: an evaluation fault yields the
empty list, and at the tool boundary that is exactly the genuine zero-match
reply, for every query and role filter. -/
theorem discovery_error_collapses_to_no_match :
    (∀ e : String, find_elements_by_text (.error e) = []) ∧
    (∀ (e text : String) (role : Option String),
      find_element_by_text_handler (.error e) text role
          = find_element_by_text_handler (.ok []) text role ∧
        find_element_by_text_handler (.error e) text role
          = noElementsMsg text role) := by
  exact ⟨fun e => rfl, fun e text role => ⟨rfl, rfl⟩⟩

/-- C4 counterexample: the locator ]x[a,b] contains no comma outside quotes
and brackets (its only comma sits inside [a,b]), yet the handler-layer
validator run by every interaction tool rejects it with the comma error,
because its depth count is driven to -1 by the stray closing bracket; the
browser-layer validator accepts it.  So the comma-check does not pass on
every locator without an unscoped comma. -/
theorem validator_rejects_bracketed_comma :
    ¬ UnscopedComma "]x[a,b]".data ∧
    handlers_validate_selector "]x[a,b]" = some .commaSeparated ∧
    validate_selector "]x[a,b]" = (true, "") := by
  refine ⟨?_, by decide, by decide⟩
  intro h
  exact absurd ((icScan_iff_UnscopedComma _).mpr h) (by decide)

/-- C4 amended: empty/whitespace-only locators are rejected by both
validator layers; bare wildcard/document-root locators are rejected by the
handler layer; a comma outside all quoted strings and bracketed segments
(per the clamped square-bracket automaton of the browser layer, which
matches the natural character-by-character tracking) always makes the
browser-layer validator return not-ok, and without such a comma its
comma-check passes; the handler-layer comma-check instead flags exactly the
commas of its own automaton, which also counts parentheses, counts brackets
inside quotes, and lets stray closers drive the depth negative. -/
theorem selector_validation_amended (s : String) :
    (pyStrip s = "" →
      handlers_validate_selector s = some .emptySel ∧
        validate_selector s = (false, emptySelectorMsg)) ∧
    (pyStrip s = "body" ∨ pyStrip s = "html" ∨ pyStrip s = "*" →
      handlers_validate_selector s ≠ none) ∧
    (UnscopedComma (pyStrip s).data → (validate_selector s).1 = false) ∧
    (¬ UnscopedComma (pyStrip s).data → icScan icInit (pyStrip s).data = false) ∧
    (hScan hInit s.data = true ↔ HUnscopedComma s.data) := by
  refine ⟨?_, ?_, ?_, ?_, hScan_iff_HUnscopedComma s.data⟩
  · intro h
    constructor
    · rw [handlers_validate_selector, if_pos h]
    · rw [validate_selector, if_pos h]
  · intro h
    rw [handlers_validate_selector]
    rw [if_neg (show ¬ pyStrip s = "" by
      rcases h with h | h | h <;> rw [h] <;> decide)]
    split
    · simp
    · dsimp only
      split
      · simp
      · rename_i hfalse
        exfalso
        rcases h with h | h | h <;> rw [h] at hfalse <;> exact hfalse (by decide)
  · intro h
    by_cases hts : pyStrip s = ""
    · rw [validate_selector, if_pos hts]
    · rw [validate_selector, if_neg hts]
      dsimp only
      have hscan : icScan icInit (pyStrip s).data = true :=
        (icScan_iff_UnscopedComma _).mpr h
      rw [if_pos hscan]
  · intro h
    cases hbb : icScan icInit (pyStrip s).data with
    | true => exact absurd ((icScan_iff_UnscopedComma _).mp hbb) h
    | false => rfl

/-- C4 amended, witness at concrete locators: whitespace-only rejected, bare
body rejected, an unscoped comma rejected, and a bracketed comma passing the
browser-layer comma-check. -/
theorem selector_validation_amended_witness :
    handlers_validate_selector "   " = some .emptySel ∧
    handlers_validate_selector " body " ≠ none ∧
    (validate_selector "div.a, div.b").1 = false ∧
    icScan icInit (pyStrip "input[name=\"a,b\"]").data = false := by
  refine ⟨((selector_validation_amended "   ").1 (by decide)).1,
    (selector_validation_amended " body ").2.1 (Or.inl (by decide)),
    (selector_validation_amended "div.a, div.b").2.2.1 ?_,
    (selector_validation_amended "input[name=\"a,b\"]").2.2.2.1 ?_⟩
  · exact (icScan_iff_UnscopedComma _).mp (by decide)
  · intro hcomma
    exact absurd ((icScan_iff_UnscopedComma _).mpr hcomma) (by decide)

/-- C5 counterexample: with a budget of 1 token and an overview of eight
3-character lines (31 characters, estimated 7 tokens), every per-line
estimate floors to 0, so the truncation loop keeps every line; the result is
flagged truncated yet identical to the input, with estimated size 7 > 1. -/
theorem truncation_exceeds_budget :
    (get_current_context 1 "aaa\naaa\naaa\naaa\naaa\naaa\naaa\naaa").wasTruncated
        = true ∧
    1 < (get_current_context 1
        "aaa\naaa\naaa\naaa\naaa\naaa\naaa\naaa").estimatedTokens ∧
    (get_current_context 1 "aaa\naaa\naaa\naaa\naaa\naaa\naaa\naaa").overview
        = "aaa\naaa\naaa\naaa\naaa\naaa\naaa\naaa" := by decide

/-- C5 amended: an overview at or under budget is returned unchanged and
unflagged.  An over-budget overview is flagged as truncated and consists of
a prefix of the original lines whose per-line floor-divided estimates sum to
at most the budget, plus the omission marker when lines were dropped; the
final estimated size may still exceed the budget because newlines and the
marker line are not counted by the loop. -/
theorem context_truncation_amended (tokenLimit : Nat) (overview : String) :
    (overview.length / CHARS_PER_TOKEN ≤ tokenLimit →
      get_current_context tokenLimit overview
        = ⟨overview, overview.length / CHARS_PER_TOKEN, false⟩) ∧
    (tokenLimit < overview.length / CHARS_PER_TOKEN →
      (get_current_context tokenLimit overview).wasTruncated = true ∧
      ∃ kept rest, pySplitChar '\n' overview = kept ++ rest ∧
        (kept.map (fun l => l.length / CHARS_PER_TOKEN)).sum ≤ tokenLimit ∧
        ((rest = [] ∧ (get_current_context tokenLimit overview).overview
            = String.intercalate "\n" kept) ∨
         (rest ≠ [] ∧ (get_current_context tokenLimit overview).overview
            = String.intercalate "\n" (kept ++
                [truncMarker ((pySplitChar '\n' overview).length - kept.length)])))) := by
  constructor
  · intro h
    rw [get_current_context]
    dsimp only
    rw [if_neg (not_lt.mpr h)]
  · intro h
    rw [get_current_context]
    dsimp only
    rw [if_pos h]
    refine ⟨rfl, ?_⟩
    obtain ⟨kept, rest, hsplit, hsum, hcase⟩ :=
      truncAux_spec tokenLimit (pySplitChar '\n' overview).length
        (pySplitChar '\n' overview) 0 0 (Nat.zero_le _)
    refine ⟨kept, rest, hsplit, by simpa using hsum, ?_⟩
    rcases hcase with ⟨hre, hout⟩ | ⟨hre, hout⟩
    · refine Or.inl ⟨hre, ?_⟩
      rw [truncate_overview]
      dsimp only
      rw [hout]
    · refine Or.inr ⟨hre, ?_⟩
      rw [truncate_overview]
      dsimp only
      rw [hout]
      simp

/-- C5 amended, witness: an under-budget overview is unchanged and
unflagged; an over-budget overview is flagged. -/
theorem context_truncation_amended_witness :
    get_current_context 100 "abc" = ⟨"abc", 0, false⟩ ∧
    (get_current_context 1
        "aaaaaaaaaaaa\nbbbbbbbbbbbb\ncccccccccccc").wasTruncated = true := by
  constructor
  · exact (context_truncation_amended 100 "abc").1 (by decide)
  · exact ((context_truncation_amended 1
      "aaaaaaaaaaaa\nbbbbbbbbbbbb\ncccccccccccc").2 (by decide)).1

/-- C6: closeTab fails without side effects whenever exactly one tab remains
or the index is out of range (the untouched state is returned with the
error); closing the active tab reassigns activity to the next tab, or the
previous one when the closed tab was last, before removal; the tab count
drops by one on success. -/
theorem close_tab_spec (st : TabSt) (i : Int) :
    (st.pages.length = 1 → close_tab st i = (st, some onlyTabMsg)) ∧
    (st.pages.length ≠ 1 → i < 0 ∨ (st.pages.length : Int) ≤ i →
      close_tab st i = (st, some (invalidTabMsg i st.pages.length))) ∧
    (∀ idx : Nat, i = (idx : Int) → 2 ≤ st.pages.length →
      idx < st.pages.length →
      (st.pages.getD idx 0 = st.active →
        close_tab st i = (⟨st.pages.eraseIdx idx,
          if idx < st.pages.length - 1 then st.pages.getD (idx + 1) 0
          else st.pages.getD (idx - 1) 0⟩, none)) ∧
      (st.pages.getD idx 0 ≠ st.active →
        close_tab st i = ({ st with pages := st.pages.eraseIdx idx }, none)) ∧
      (close_tab st i).1.pages.length = st.pages.length - 1) := by
  refine ⟨?_, ?_, ?_⟩
  · intro h
    rw [close_tab, if_pos h]
  · intro h hrange
    rw [close_tab, if_neg h, if_pos (by
      rcases hrange with h' | h' <;> simp [h'])]
  · intro idx hi hlen hidx
    have hne1 : st.pages.length ≠ 1 := by omega
    have hnr : ¬((i < 0 : Bool) || ((st.pages.length : Int) ≤ i : Bool)) = true := by
      subst hi
      simp only [Bool.or_eq_true, decide_eq_true_eq]
      push_neg
      constructor
      · exact Int.ofNat_nonneg idx
      · exact_mod_cast hidx
    have htoNat : (↑idx : Int).toNat = idx := Int.toNat_natCast idx
    refine ⟨?_, ?_, ?_⟩
    · intro hact
      rw [close_tab, if_neg hne1, if_neg (by subst hi; exact hnr)]
      subst hi
      dsimp only
      rw [htoNat, if_pos hact]
      split <;> rfl
    · intro hact
      rw [close_tab, if_neg hne1, if_neg (by subst hi; exact hnr)]
      subst hi
      dsimp only
      rw [htoNat, if_neg hact]
    · rw [close_tab, if_neg hne1, if_neg (by subst hi; exact hnr)]
      subst hi
      dsimp only
      rw [htoNat]
      have := List.length_eraseIdx_add_one hidx
      omega

/-- C6 witness at concrete tab states: sole-tab refusal, range refusal,
closing the active middle tab (activity moves to the next), closing the
active last tab (activity moves to the previous), and closing an inactive
tab. -/
theorem close_tab_spec_witness :
    close_tab ⟨[7], 7⟩ 0 = (⟨[7], 7⟩, some onlyTabMsg) ∧
    close_tab ⟨[7, 8], 7⟩ 5 = (⟨[7, 8], 7⟩, some (invalidTabMsg 5 2)) ∧
    close_tab ⟨[5, 6, 7], 6⟩ 1 = (⟨[5, 7], 7⟩, none) ∧
    close_tab ⟨[5, 6, 7], 7⟩ 2 = (⟨[5, 6], 6⟩, none) ∧
    close_tab ⟨[5, 6, 7], 5⟩ 1 = (⟨[5, 7], 5⟩, none) := by
  refine ⟨(close_tab_spec ⟨[7], 7⟩ 0).1 (by decide),
    (close_tab_spec ⟨[7, 8], 7⟩ 5).2.1 (by decide) (by decide),
    ?_, ?_, ?_⟩
  · exact ((close_tab_spec ⟨[5, 6, 7], 6⟩ 1).2.2 1 rfl (by decide)
      (by decide)).1 (by decide)
  · exact ((close_tab_spec ⟨[5, 6, 7], 7⟩ 2).2.2 2 rfl (by decide)
      (by decide)).1 (by decide)
  · exact ((close_tab_spec ⟨[5, 6, 7], 5⟩ 1).2.2 1 rfl (by decide)
      (by decide)).2.1 (by decide)

/-- C7: on every page where a native interactive element has a generic
inline/text child (span/div/p) whose text contains the query (so in
particular when it carries the identical matching text), both visible, the
interactive parent's score is strictly greater than the child's and the
parent is ranked strictly above the child; and score-ties in the ranking are
broken by document order (the candidate order). -/
theorem find_by_text_parent_outranks_inline_child
    (query : String) (root : Dom) (q bt : String) (bv : Bool) (bks : List Dom)
    (ct : String) (cv : Bool) (cks : List Dom)
    (hb : (q, Dom.el bt bv bks) ∈ walker root)
    (hc : Dom.el ct cv cks ∈ bks)
    (hbt : bt ∈ interactiveTags) (hct : ct ∈ genericInline)
    (hbv : bv = true) (hcv : cv = true)
    (hctext : strContains (textContent (Dom.el ct cv cks)) query = true) :
    (∃ bi ci : Nat,
      (⟨bi, bt, q, getPriority query bt q bks⟩ : Candidate)
          ∈ candidates query root ∧
      (⟨ci, ct, bt, getPriority query ct bt cks⟩ : Candidate)
          ∈ candidates query root ∧
      getPriority query ct bt cks < getPriority query bt q bks ∧
      List.Sublist [⟨bi, bt, q, getPriority query bt q bks⟩,
        ⟨ci, ct, bt, getPriority query ct bt cks⟩] (ranked query root)) ∧
    (∀ x y : Candidate, List.Sublist [x, y] (candidates query root) →
      x.priority = y.priority → List.Sublist [x, y] (ranked query root)) := by
  have hbtext : strContains (textContent (Dom.el bt bv bks)) query = true :=
    strContains_of_child hc hctext
  obtain ⟨bi, hbi⟩ := mem_mkCands query (walker root) 0 q bt bv bks hb hbtext hbv
  have hcw : (bt, Dom.el ct cv cks) ∈ walker root := walker_child_mem hb hc
  obtain ⟨ci, hci⟩ :=
    mem_mkCands query (walker root) 0 bt ct cv cks hcw hctext hcv
  have hlt : getPriority query ct bt cks < getPriority query bt q bks :=
    lt_of_le_of_lt (getPriority_inline_child_le query ct bt cks hct hbt)
      (lt_of_lt_of_le (by norm_num : (-150 : ℚ) < 70)
        (getPriority_interactive_ge query bt q bks hbt))
  refine ⟨⟨bi, ci, hbi, hci, hlt, ?_⟩, ?_⟩
  · exact sort_pair_sublist_of_gt hbi hci hlt
  · intro x y hxy hpr
    exact sort_pair_sublist_of_eq hxy hpr

/-- C7 witness: a body holding a button with a decorative inner span whose
text matches the query; the button outranks the span. -/
theorem find_by_text_parent_outranks_inline_child_witness :
    (∃ bi ci : Nat,
      (⟨bi, "button", "body", getPriority "Pay" "button" "body"
          [Dom.el "span" true [Dom.txt "Pay now"]]⟩ : Candidate)
        ∈ candidates "Pay" (Dom.el "body" true [Dom.el "button" true
            [Dom.el "span" true [Dom.txt "Pay now"]]]) ∧
      (⟨ci, "span", "button", getPriority "Pay" "span" "button"
          [Dom.txt "Pay now"]⟩ : Candidate)
        ∈ candidates "Pay" (Dom.el "body" true [Dom.el "button" true
            [Dom.el "span" true [Dom.txt "Pay now"]]]) ∧
      getPriority "Pay" "span" "button" [Dom.txt "Pay now"]
        < getPriority "Pay" "button" "body"
            [Dom.el "span" true [Dom.txt "Pay now"]] ∧
      List.Sublist
        [⟨bi, "button", "body", getPriority "Pay" "button" "body"
            [Dom.el "span" true [Dom.txt "Pay now"]]⟩,
         ⟨ci, "span", "button", getPriority "Pay" "span" "button"
            [Dom.txt "Pay now"]⟩]
        (ranked "Pay" (Dom.el "body" true [Dom.el "button" true
            [Dom.el "span" true [Dom.txt "Pay now"]]]))) := by
  refine (find_by_text_parent_outranks_inline_child "Pay"
    (Dom.el "body" true [Dom.el "button" true
      [Dom.el "span" true [Dom.txt "Pay now"]]])
    "body" "button" true [Dom.el "span" true [Dom.txt "Pay now"]]
    "span" true [Dom.txt "Pay now"]
    ?_ ?_ (by decide) (by decide) rfl rfl ?_).1
  · simp [walker, walkList, walkAux]
  · exact List.mem_singleton.mpr rfl
  · show strContains (textContentList [Dom.txt "Pay now"]) "Pay" = true
    rw [textContentList, textContent, textContentList]
    decide

/-- When at least one tool is registered, building the second retry hint
raises: the list comprehension iterates the tools dict, obtaining key
strings, and takes .name of a string. -/
theorem get_retry_hint_2_crashes (reg : ToolRegistry) (hne : reg.tools ≠ []) :
    get_retry_hint_message reg 2
      = .error (.attributeError "'str' object has no attribute 'name'") := by
  obtain ⟨p, ks, hk⟩ := List.exists_cons_of_ne_nil hne
  rw [get_retry_hint_message, if_neg (by decide), if_pos rfl, hk]
  rfl

/-- C8: with any non-empty tool registry (the coordinator registers about
nineteen tools), a task whose first two model responses contain no tool
calls crashes the loop with AttributeError while the second escalation hint
is being built, instead of continuing to the Exhausted termination the spec
describes.  The first hint is still injected; the crash happens on the
second consecutive no-action response. -/
theorem second_no_action_response_crashes
    (env : CoordEnv) (task o : String) (r1 r2 : List Block)
    (rest : List (List Block))
    (h0 : env.ctx 0 = .ok o)
    (hne : env.registry.tools ≠ [])
    (hIter : 2 ≤ env.maxIterations)
    (h1 : extract_tool_calls r1 = []) (h2 : extract_tool_calls r2 = []) :
    (execute_task env task (r1 :: r2 :: rest)).1
      = .crashed (.attributeError "'str' object has no attribute 'name'") := by
  rw [execute_task, h0]
  dsimp only
  rw [coordLoop.eq_def]
  dsimp only
  rw [if_neg (show ¬ env.maxIterations ≤ 0 by omega)]
  rw [h1, if_pos rfl, if_neg (show ¬ (3:Nat) ≤ 0 + 1 by omega)]
  rw [show get_retry_hint_message env.registry (0 + 1) = .ok retryHint1 from rfl]
  dsimp only
  rw [coordLoop.eq_def]
  dsimp only
  rw [if_neg (show ¬ env.maxIterations ≤ 0 + 1 by omega)]
  rw [h2, if_pos rfl, if_neg (show ¬ (3:Nat) ≤ 1 + 1 by omega)]
  rw [show (1:Nat) + 1 = 2 from rfl, get_retry_hint_2_crashes env.registry hne]

/-- C8 witness: a concrete coordinator environment with one registered tool
and two scripted no-action responses crashes with the AttributeError. -/
theorem second_no_action_response_crashes_witness :
    (execute_task
      ⟨⟨[("navigate_to", ⟨"navigate_to", "Navigate to a specific URL.",
          fun _ => .ok ""⟩)]⟩, 10, fun _ _ => true, fun _ => .ok "overview"⟩
      "report the title" [[Block.textBlock "thinking"], []]).1
      = .crashed (.attributeError "'str' object has no attribute 'name'") :=
  second_no_action_response_crashes
    ⟨⟨[("navigate_to", ⟨"navigate_to", "Navigate to a specific URL.",
        fun _ => .ok ""⟩)]⟩, 10, fun _ _ => true, fun _ => .ok "overview"⟩
    "report the title" "overview" [Block.textBlock "thinking"] [] []
    rfl (List.cons_ne_nil _ _) (by decide) rfl rfl

/-- C9: in every run of the coordinator loop and of a delegate sub-agent
loop, every conversation handed to the model is well paired: each
tool-invocation turn is followed, before the next model call, by exactly one
matching tool-result turn, on the confirmation, human-intervention,
failure-hint and context-refresh paths included. -/
theorem tool_invocations_paired :
    (∀ (env : CoordEnv) (task : String) (script : List (List Block)),
      ∀ c ∈ (execute_task env task script).2, WellPaired c) ∧
    (∀ (reg : ToolRegistry) (agentName subtask : String) (maxSteps : Nat)
      (script : List (List Block)),
      ∀ c ∈ (sub_execute reg agentName subtask maxSteps script).2,
        WellPaired c) := by
  constructor
  · intro env task script c hc
    rw [execute_task] at hc
    cases hctx : env.ctx 0 with
    | error e =>
      rw [hctx] at hc
      cases hc
    | ok o =>
      rw [hctx] at hc
      refine coordLoop_trace script env _ ?_ ?_ c hc
      · rfl
      · intro c' hc'
        cases hc'
  · intro reg agentName subtask maxSteps script c hc
    rw [sub_execute] at hc
    refine subLoop_trace maxSteps script reg agentName _ [] ?_ ?_ c hc
    · rfl
    · intro c' hc'
      cases hc'

/-- C9 witness: a concrete one-iteration run whose trace holds exactly the
initial conversation, which is well paired. -/
theorem tool_invocations_paired_witness :
    WellPaired [Turn.userMsg (initialUserMsg "t" "ov")] := by
  refine tool_invocations_paired.1
    ⟨⟨[]⟩, 1, fun _ _ => true, fun _ => .ok "ov"⟩ "t" [[]]
    [Turn.userMsg (initialUserMsg "t" "ov")] ?_
  have hrun : (execute_task ⟨⟨[]⟩, 1, fun _ _ => true, fun _ => .ok "ov"⟩
      "t" [[]]).2 = [[Turn.userMsg (initialUserMsg "t" "ov")]] := rfl
  rw [hrun]
  exact List.mem_singleton.mpr rfl

end AutoBrowser
